import Mathlib

/-!
Verification of the "28" card-game server backend.

This file shallowly embeds the Python sources under `backend/app/` (the card
identity adapter, canonical key builder, bidding rule engine, play engine,
websocket message handler core, game redeal, and the rollout bot's snapshot
builder) as executable Lean definitions, and proves or refutes the frozen
claims about them.

Conventions:
* wire card ids are `List Char` (Python `str`), split on the first `'_'`
  exactly as `str.split("_", 1)` does;
* Python `list` becomes `List`, in-place mutation becomes record update;
* Python exceptions (`ValueError`) become `Except`/`Option` error values;
* the missing `app.legacy` engine (`minimax.actions/result/checkwin_extended/
  reset`, `Cards.identity`) is kept abstract as a structure of function
  parameters, since no claim depends on its internals.
-/

namespace Game28

/-- Suits, in the order of `SUITS = ("Hearts", "Clubs", "Diamonds", "Spades")`
from `cards_adapter.py`. -/
inductive Suit
  | Hearts
  | Clubs
  | Diamonds
  | Spades
deriving DecidableEq, Repr

/-- Ranks, in the order of
`RANKS = ("Seven", "Eight", "Queen", "King", "Ten", "Ace", "Nine", "Jack")`
(trick-strength ascending) from `cards_adapter.py`. -/
inductive Rank
  | Seven
  | Eight
  | Queen
  | King
  | Ten
  | Ace
  | Nine
  | Jack
deriving DecidableEq, Repr

/-- The `SUITS` tuple of `cards_adapter.py`. -/
def SUITS : List Suit := [.Hearts, .Clubs, .Diamonds, .Spades]

/-- The `RANKS` tuple of `cards_adapter.py`. -/
def RANKS : List Rank := [.Seven, .Eight, .Queen, .King, .Ten, .Ace, .Nine, .Jack]

/-- The literal wire spelling of a suit. -/
def suitChars : Suit → List Char
  | .Hearts => "Hearts".toList
  | .Clubs => "Clubs".toList
  | .Diamonds => "Diamonds".toList
  | .Spades => "Spades".toList

/-- The literal wire spelling of a rank. -/
def rankChars : Rank → List Char
  | .Seven => "Seven".toList
  | .Eight => "Eight".toList
  | .Queen => "Queen".toList
  | .King => "King".toList
  | .Ten => "Ten".toList
  | .Ace => "Ace".toList
  | .Nine => "Nine".toList
  | .Jack => "Jack".toList

/-- `points_and_order` from `cards_adapter.py`: point value of a rank and its
index in the `RANKS` tuple. -/
def points_and_order (rank : Rank) : Nat × Nat :=
  let points :=
    if rank = .Ten ∨ rank = .Ace then 1
    else if rank = .Nine then 2
    else if rank = .Jack then 3
    else 0
  (points, RANKS.findIdx (· == rank))

/-- The internal card value (`Cards` of the legacy engine, as constructed by
`cards_adapter.from_card_id`): suit, rank, points and trick-strength order. -/
structure Cards where
  suit : Suit
  rank : Rank
  points : Nat
  order : Nat
deriving DecidableEq, Repr

/-- A card value with its `points` and `order` derived from its rank, exactly
as `from_card_id` builds them. -/
def mkCard (s : Suit) (r : Rank) : Cards :=
  ⟨s, r, (points_and_order r).1, (points_and_order r).2⟩

/-- The wire id `"<Suit>_<Rank>"` as a character list. -/
def cardIdChars (s : Suit) (r : Rank) : List Char :=
  suitChars s ++ '_' :: rankChars r

/-- `to_card_id` from `cards_adapter.py`. -/
def to_card_id (c : Cards) : List Char :=
  cardIdChars c.suit c.rank

/-- Python `some_string.split("_", 1)`: split at the first underscore, if
any. Returns `(before, after)`; the `after` part keeps later underscores. -/
def splitFirstUnderscore : List Char → Option (List Char × List Char)
  | [] => none
  | c :: cs =>
    if c = '_' then some ([], cs)
    else
      match splitFirstUnderscore cs with
      | none => none
      | some (a, b) => some (c :: a, b)

/-- Python `suit not in SUITS` membership test, as a parse. -/
def parseSuit (cs : List Char) : Option Suit :=
  if cs = suitChars .Hearts then some .Hearts
  else if cs = suitChars .Clubs then some .Clubs
  else if cs = suitChars .Diamonds then some .Diamonds
  else if cs = suitChars .Spades then some .Spades
  else none

/-- Python `rank not in RANKS` membership test, as a parse. -/
def parseRank (cs : List Char) : Option Rank :=
  if cs = rankChars .Seven then some .Seven
  else if cs = rankChars .Eight then some .Eight
  else if cs = rankChars .Queen then some .Queen
  else if cs = rankChars .King then some .King
  else if cs = rankChars .Ten then some .Ten
  else if cs = rankChars .Ace then some .Ace
  else if cs = rankChars .Nine then some .Nine
  else if cs = rankChars .Jack then some .Jack
  else none

/-- `from_card_id` from `cards_adapter.py`: split the id on the first
underscore (ValueError if there is none), check the suit token, check the
rank token, then build the card with derived points and order. -/
def from_card_id (cs : List Char) : Except String Cards :=
  match splitFirstUnderscore cs with
  | none => .error "Invalid cardId"
  | some (su, ra) =>
    match parseSuit su with
    | none => .error "Invalid suit"
    | some s =>
      match parseRank ra with
      | none => .error "Invalid rank"
      | some r => .ok (mkCard s r)

/-- `Cards.identity()` of the legacy engine. Modelled from the spec: the
spec's data model says a card's `identity` is "a stable per-value label
distinct in purpose from (but information-equivalent to) the wire card-id";
all call sites only ever compare identities for equality, so we realize it as
the wire id itself. -/
def Cards.identity (c : Cards) : List Char :=
  to_card_id c

/-! ## Canonical key builder (`canonical_key.py`) -/

/-- `RANK_STRENGTH` from `canonical_key.py`: index of the rank code in
`RANK_STRENGTH_ORDER = ["J", "9", "A", "10", "K", "Q", "8", "7"]` (smaller
index means stronger for bidding). Rank codes are represented by `Rank`. -/
def RANK_STRENGTH : Rank → Nat
  | .Jack => 0
  | .Nine => 1
  | .Ace => 2
  | .Ten => 3
  | .King => 4
  | .Queen => 5
  | .Eight => 6
  | .Seven => 7

/-- `_rank_code_from_card_id` from `canonical_key.py`: split the id on the
first underscore (ValueError if absent) and map the rank name through
`RANK_NAME_TO_CODE` (ValueError if unknown). -/
def _rank_code_from_card_id (cid : List Char) : Except String Rank :=
  match splitFirstUnderscore cid with
  | none => .error "Invalid cardId"
  | some (_su, rankName) =>
    match parseRank rankName with
    | none => .error "Unknown rank name in cardId"
    | some r => .ok r

/-- `cid.split("_", 1)[0]`: the suit key used for grouping. With no
underscore Python returns the whole string as element 0 (no exception). -/
def suitKeyOfCardId (cid : List Char) : List Char :=
  match splitFirstUnderscore cid with
  | none => cid
  | some (su, _) => su

/-- Stable insertion into a list sorted (ascending) by the boolean order
`le`; the new element goes after any element `y` with `le y x`, matching
the stability of Python's sort. -/
def stableInsert (le : α → α → Bool) (x : α) : List α → List α
  | [] => [x]
  | y :: ys => if le y x then y :: stableInsert le x ys else x :: y :: ys

/-- Stable ascending sort by `le`, matching Python's stable `list.sort`. -/
def stableSort (le : α → α → Bool) (l : List α) : List α :=
  l.foldl (fun acc x => stableInsert le x acc) []

/-- `_strength_key` from `canonical_key.py`: the tuple of negated strength
indices (the sign inversion is the source's own). -/
def _strength_key (rankCodes : List Rank) : List Int :=
  rankCodes.map (fun r => -(RANK_STRENGTH r : Int))

/-- Python lexicographic comparison (`≤`) on integer tuples, including the
shorter-is-smaller prefix rule. -/
def intListLe : List Int → List Int → Bool
  | [], _ => true
  | _ :: _, [] => false
  | x :: xs, y :: ys =>
    if x < y then true else if x = y then intListLe xs ys else false

/-- `≤` on the sort key `(-len(g[0]), _strength_key(g[0]))` used by
`build_canonical_key_and_mapping` step 3. -/
def groupKeyLe (a b : Int × List Int) : Bool :=
  decide (a.1 < b.1) || (decide (a.1 = b.1) && intListLe a.2 b.2)

/-- `CanonicalResult` from `canonical_key.py`. -/
structure CanonicalResult where
  canonical_groups : List (List Rank)
  canonical_cardid_groups : List (List (List Char))
  flat_card_ids : List (List Char)
deriving DecidableEq, Repr

/-- Insertion-ordered grouping of card ids by their suit key, as Python's
`dict.setdefault` preserves first-occurrence order of the keys. -/
def groupBySuitKey (ids : List (List Char)) :
    List (List Char × List (List Char)) :=
  ids.foldl
    (fun acc cid =>
      let key := suitKeyOfCardId cid
      if acc.any (fun g => g.1 = key) then
        acc.map (fun g => if g.1 = key then (g.1, g.2 ++ [cid]) else g)
      else acc ++ [(key, [cid])])
    []

/-- `build_canonical_key_and_mapping` from `canonical_key.py`:
group the 4 ids by suit, sort within each suit ascending by
`RANK_STRENGTH`, sort the suit groups by the key
`(-len, _strength_key)` and drop the suit labels. -/
def build_canonical_key_and_mapping (first4_card_ids : List (List Char)) :
    Except String CanonicalResult :=
  if first4_card_ids.length ≠ 4 then
    .error "Expected exactly 4 cardIds for canonicalization."
  else do
    let groups := groupBySuitKey first4_card_ids
    -- build (rank_code, cardId) pairs per suit and sort by strength
    let suitGroups ← groups.mapM (fun g => do
      let pairs ← g.2.mapM (fun cid => do
        let r ← _rank_code_from_card_id cid
        pure (r, cid))
      let sorted := stableSort (fun a b => RANK_STRENGTH a.1 ≤ RANK_STRENGTH b.1) pairs
      pure (sorted.map Prod.fst, sorted.map Prod.snd))
    let sortedGroups := stableSort
      (fun a b => groupKeyLe
        (-(a.1.length : Int), _strength_key a.1)
        (-(b.1.length : Int), _strength_key b.1))
      suitGroups
    pure
      { canonical_groups := sortedGroups.map Prod.fst
        canonical_cardid_groups := sortedGroups.map Prod.snd
        flat_card_ids := (sortedGroups.map Prod.snd).flatten }

/-! ## Bidding rule engine (`bidding_engine.py`) -/

/-- `BidTurnRules` from `bidding_engine.py`. -/
structure BidTurnRules where
  seat_index : Nat
  min_bid_exclusive : Int
  max_bid_inclusive : Int
  can_pass : Bool
  can_redeal : Bool
deriving DecidableEq, Repr

/-- `_is_zero_point_first4` from `bidding_engine.py`. -/
def _is_zero_point_first4 (pointsSum : Nat) : Bool :=
  pointsSum = 0

/-- `compute_r1_turn_rules` from `bidding_engine.py`. List indexing uses
`getD` with the Python defaults irrelevant under 4-element trackers. -/
def compute_r1_turn_rules (bidding_order : List Nat) (step : Nat)
    (bids_by_pos : List Int) (passes_by_pos : List Bool) (final_pos : Nat)
    (first4_points_by_seat : List Nat) : BidTurnRules :=
  let seat := bidding_order.getD step 0
  let max_bid : Int := 23
  if step = 0 then
    { seat_index := seat
      min_bid_exclusive := 13
      max_bid_inclusive := max_bid
      can_pass := false
      can_redeal := _is_zero_point_first4 (first4_points_by_seat.getD seat 0) }
  else
    let min_excl : Int :=
      if step = 1 then bids_by_pos.getD 0 0
      else if step = 2 then
        if !(passes_by_pos.getD 1 false) then bids_by_pos.getD 1 0
        else max (bids_by_pos.getD 0 0) 19
      else -- step == 3 (and anything later, as in the Python `else`)
        if final_pos = 1 then max (bids_by_pos.getD final_pos 0) 19
        else bids_by_pos.getD final_pos 0
    { seat_index := seat
      min_bid_exclusive := min_excl
      max_bid_inclusive := max_bid
      can_pass := true
      can_redeal := false }

/-- Websocket error frames. Each constructor corresponds to one `raise`
site (one ERROR message text) in the Python sources. -/
inductive WsError
  | notYourTurnBid          -- "Not P{n}'s turn to bid." (ws.py, R1 and R2)
  | redealNotAllowed        -- "Redeal not allowed for this player."
  | passNotAllowed          -- "Pass not allowed for this player."
  | bidTooLow               -- "Bid must be > {min}."
  | bidTooHigh              -- "Bid must be <= {max}."
  | redealNotImplemented    -- "Redeal flow not implemented yet."
  | notInBiddingPhase       -- "Not in a bidding phase."
  | notInTrumpPhase         -- "Not in trump selection phase."
  | finalBidderNotSet       -- "final_bidder_seat not set."
  | notYourTrumpTurn        -- "Not your trump selection turn."
  | cardNotInHand           -- "Card not in hand."
  | notInManualDealPhase    -- "Not in MANUAL_DEAL_REST phase."
  | restHandsCount          -- "restHands must have 4 lists (one per player)."
  | restHandsSize           -- "Player {n} must receive exactly 4 cards."
  | restHandsTotal          -- "Total restHands cards must be 16."
  | restHandsDuplicate      -- "Duplicate cardIds found in restHands."
  | restHandsMismatch       -- "restHands must use exactly the 16 remaining draw pile cards."
  | invalidCardId           -- ValueError raised by from_card_id
  | notInPlayPhase          -- "Not in PLAY phase."
  | notYourTurnPlay         -- "Not your turn." (play_engine.py)
  | notExpectingCardPlay    -- "Not expecting a card play right now."
  | illegalCard             -- "Illegal card."
  | cardNotFoundToPlay      -- "Card not found to play."
  | unknownMessageType      -- "Unknown message type: ..."
deriving DecidableEq, Repr

/-- `validate_r1_bid_value` from `bidding_engine.py`. `none` means the value
passed validation. -/
def validate_r1_bid_value (rules : BidTurnRules) (bid_value : Int) :
    Option WsError :=
  if bid_value = -1 then
    if !rules.can_redeal then some .redealNotAllowed else none
  else if bid_value = 0 then
    if !rules.can_pass then some .passNotAllowed else none
  else if bid_value ≤ rules.min_bid_exclusive then some .bidTooLow
  else if bid_value > rules.max_bid_inclusive then some .bidTooHigh
  else none

/-- `compute_r2_turn_rules` from `bidding_engine.py`: min is the current
maximum non-zero bid (or 23 if none), ceiling 28. -/
def compute_r2_turn_rules (bidding_order : List Nat) (step : Nat)
    (bids_so_far_by_pos : List Int) : BidTurnRules :=
  let seat := bidding_order.getD step 0
  -- Python `max([b for b in bids if b != 0] + [23])`
  let max_current :=
    (bids_so_far_by_pos.filter (fun b => b ≠ 0)).foldl max (23 : Int)
  { seat_index := seat
    min_bid_exclusive := max_current
    max_bid_inclusive := 28
    can_pass := true
    can_redeal := false }

/-- `validate_r2_bid_value` from `bidding_engine.py`. -/
def validate_r2_bid_value (rules : BidTurnRules) (bid_value : Int) :
    Option WsError :=
  if bid_value = 0 then none
  else if bid_value ≤ rules.min_bid_exclusive then some .bidTooLow
  else if bid_value > rules.max_bid_inclusive then some .bidTooHigh
  else none

/-! ## Game state (`state.py`, plus the dynamic play fields) -/

/-- The game phases (`Phase` literal in `state.py`). -/
inductive Phase
  | BIDDING_R1
  | TRUMP_SELECT_R1
  | MANUAL_DEAL_REST
  | BIDDING_R2
  | TRUMP_SELECT_R2
  | PLAY
  | GAME_OVER
deriving DecidableEq, Repr

/-- Event-log lines (`state.event_log` strings), one constructor per
distinct format string appended by the sources. -/
inductive LogEntry
  | gameCreated
  | startingBidderIs (seat : Nat)
  | passedR1 (seat : Int)
  | bidR1 (seat : Int) (v : Int)
  | requestedRedealNotImplemented (seat : Int)
  | r1Winner (seat : Nat) (v : Int)
  | passedR2 (seat : Int)
  | bidR2 (seat : Int) (v : Int)
  | noFurtherBidsR2
  | r2Winner (seat : Nat) (v : Int)
  | selectedTrump (seat : Int)
  | manualDealPrompt
  | manualDealComplete
  | enteringPlayAfterR2
  | playInitialized
  | leaderForCatch (seat : Nat)
  | revealedTrump (seat : Int)
  | choseNotReveal (seat : Int)
  | playedCard (seat : Int) (ident : List Char)
  | inferredVoid (seat : Nat) (suit : Suit)
  | catchWon (catchNo : Int) (winner : Nat) (team : Nat) (points : Int)
  | gameOverWin (team : Nat) (points : Int) (contract : Int)
  | redealPerformed
deriving DecidableEq, Repr

/-- One entry of `state.play_players` (the per-seat dict built by
`init_play_state`). -/
structure PlayPlayer where
  cards : List Cards
  isTrump : Bool
  team : Nat
  trump : Option Cards
deriving DecidableEq, Repr

instance : Inhabited PlayPlayer := ⟨⟨[], false, 0, none⟩⟩

set_option synthInstance.maxHeartbeats 1000000 in
/-- `GameState` from `state.py`, together with the play-phase attributes the
engine sets on it dynamically (`suit_matrix`, etc.). `currentSuit` is
`Option Suit` for Python's empty-string-or-suit-name; numeric fields keep
Python `int` as `Int` where negative values can occur. -/
structure GameState where
  game_id : Nat
  phase : Phase
  starting_bidder_index : Nat
  bidding_order : List Nat
  bidding_r1_step : Nat
  bidding_r2_step : Nat
  bidding_r1_bids_by_pos : List Int
  bidding_r1_passes_by_pos : List Bool
  bidding_r1_final_pos : Nat
  bidding_r2_bids_by_pos : List Int
  bids_r1_by_seat : List Int
  bids_r2_by_seat : List Int
  round1_bidder_seat : Option Nat
  round1_bid_value : Option Int
  final_bidder_seat : Option Nat
  final_bid_value : Option Int
  players_cards : List (List Cards)
  draw_pile : List Cards
  player_trump : Option Cards
  finalBid : Int
  finalBidValue : Int
  trumpSuit : Option Suit
  trumpReveal : Bool
  known : Bool
  chose : Bool
  leaderIndex : Nat
  catchNumber : Int
  s : List Cards
  currentSuit : Option Suit
  trumpPlayed : Bool
  trumpIndice : List Int
  team1Points : Int
  team2Points : Int
  team1Catches : List (List Cards)
  team2Catches : List (List Cards)
  play_players : List PlayPlayer
  winnerTeam : Option Nat
  suit_matrix : List (List Nat)
  event_log : List LogEntry
deriving DecidableEq, Repr

/-- The `turn_index` property of `GameState` in `state.py`. -/
def turn_index (st : GameState) : Int :=
  match st.phase with
  | .BIDDING_R1 => (st.bidding_order.getD st.bidding_r1_step 0 : Int)
  | .BIDDING_R2 => (st.bidding_order.getD st.bidding_r2_step 0 : Int)
  | .TRUMP_SELECT_R1 | .TRUMP_SELECT_R2 =>
    match st.final_bidder_seat with
    | none => -1
    | some b => (b : Int)
  | .PLAY => ((st.leaderIndex + st.s.length) % 4 : Nat)
  | _ => -1

/-- `SUIT_MATRIX_INDEX` (imported from `app.engine.state` but absent from
the available `state.py`). Modelled from the spec: the 4×4 suit-knowledge
matrix has one row per suit; `rollout_bot.py`'s comment fixes the row order
as Hearts, Diamonds, Spades, Clubs. Any injective assignment supports the
claims proved here. -/
def SUIT_MATRIX_INDEX : Suit → Nat
  | .Hearts => 0
  | .Diamonds => 1
  | .Spades => 2
  | .Clubs => 3

/-- Read `suit_matrix[row][col]` (the matrix is always 4×4 of 0/1 in the
source; out-of-range reads default harmlessly). -/
def getCell (m : List (List Nat)) (row col : Nat) : Nat :=
  (m.getD row []).getD col 1

/-- Write `suit_matrix[row][col] = v`. -/
def setCell (m : List (List Nat)) (row col : Nat) (v : Nat) :
    List (List Nat) :=
  m.set row ((m.getD row []).set col v)

/-! ## Play engine (`play_engine.py`), over an abstract legacy engine -/

/-- The state slice passed to the legacy `minimax` functions at every call
site in `play_engine.py`. -/
structure EngineView where
  s : List Cards
  players : List PlayPlayer
  trumpReveal : Bool
  trumpSuit : Option Suit
  currentSuit : Option Suit
  chose : Bool
  finalBid : Int
  playerTrump : Option Cards
  trumpPlayed : Bool
  trumpIndice : List Int
  leaderIndex : Nat
deriving Repr

def viewOf (st : GameState) : EngineView :=
  ⟨st.s, st.play_players, st.trumpReveal, st.trumpSuit, st.currentSuit,
   st.chose, st.finalBid, st.player_trump, st.trumpPlayed, st.trumpIndice,
   st.leaderIndex⟩

/-- The shape of `legacy_minimax.actions(...)`: an empty list, a list of
booleans (reveal decision), or a list of playable cards. -/
inductive LegacyActs
  | empty
  | reveal (options : List Bool)
  | play (cards : List Cards)

/-- The 10 state components returned by `legacy_minimax.result(...)` (the
11th, `undo`, is discarded by every caller). -/
structure ResultTuple where
  currentSuit : Option Suit
  s : List Cards
  trumpReveal : Bool
  chose : Bool
  playerTrump : Option Cards
  trumpPlayed : Bool
  trumpIndice : List Int
  players : List PlayPlayer
  trumpSuit : Option Suit
  finalBid : Int

/-- The legacy rule/search engine (`app.legacy.minimax`), whose source is
not in the repository. Kept fully abstract: every claim proved below holds
for an arbitrary engine, or is evaluated with an explicit concrete one. -/
structure LegacyEngine where
  actions : EngineView → LegacyActs
  result : EngineView → (Bool ⊕ Cards) → ResultTuple
  checkwin_extended : EngineView → Nat × Int
  reset : Option Suit → List Cards → Bool → List Int → Bool →
    Option Suit × List Cards × Bool × List Int × Bool

/-- Write the components of a `result` tuple back into the game state, as
the unpacking assignments in `apply_reveal_choice`/`apply_play_card` do. -/
def writeBackResult (st : GameState) (rt : ResultTuple) : GameState :=
  { st with
    currentSuit := rt.currentSuit
    s := rt.s
    trumpReveal := rt.trumpReveal
    chose := rt.chose
    player_trump := rt.playerTrump
    trumpPlayed := rt.trumpPlayed
    trumpIndice := rt.trumpIndice
    play_players := rt.players
    trumpSuit := rt.trumpSuit
    finalBid := rt.finalBid }

/-- `current_actor_index` from `play_engine.py`. -/
def current_actor_index (leader_index s_len : Nat) : Nat :=
  (leader_index + s_len) % 4

/-- `_infer_void_if_failed_follow` from `play_engine.py`. -/
def _infer_void_if_failed_follow (st : GameState) (seat_index : Nat)
    (pre_trick_len : Nat) (led_suit : Option Suit) (played_suit : Suit) :
    GameState :=
  if pre_trick_len = 0 then st
  else
    match led_suit with
    | none => st
    | some ledSuit =>
      if played_suit = ledSuit then st
      else
        let row := SUIT_MATRIX_INDEX ledSuit
        if getCell st.suit_matrix row seat_index ≠ 0 then
          { st with
            suit_matrix := setCell st.suit_matrix row seat_index 0
            event_log := st.event_log ++ [LogEntry.inferredVoid seat_index ledSuit] }
        else st

/-- `init_play_state` from `play_engine.py`. `none` models the
`RuntimeError` when no final bidder/bid is set. In the Python source
`play_players[i]["cards"]` aliases `players_cards[i]`; the embedding copies
the list, which is equivalent for every claim proved here (none reads
`players_cards` after play began). -/
def init_play_state (st : GameState) : Option GameState :=
  match st.final_bidder_seat, st.final_bid_value with
  | some bidder, some fbv =>
    some { st with
      finalBid := (bidder : Int) + 1
      finalBidValue := fbv
      trumpReveal := false
      known := false
      chose := false
      s := []
      currentSuit := none
      trumpPlayed := false
      trumpIndice := [0, 0, 0, 0]
      catchNumber := 1
      team1Points := 0
      team2Points := 0
      team1Catches := []
      team2Catches := []
      leaderIndex := st.starting_bidder_index
      trumpSuit := st.player_trump.map (·.suit)
      suit_matrix := [[1,1,1,1],[1,1,1,1],[1,1,1,1],[1,1,1,1]]
      play_players := (List.range 4).map (fun i =>
        { cards := st.players_cards.getD i []
          isTrump := i = bidder
          team := if i % 2 = 0 then 1 else 2
          trump := if i = bidder then st.player_trump else none })
      event_log := st.event_log ++
        [LogEntry.playInitialized, .leaderForCatch st.starting_bidder_index] }
  | _, _ => none

/-- The classification produced by `compute_play_legal_actions`. -/
inductive PlayLegalActions
  | noAction (seatIndex : Nat)
  | revealChoice (seatIndex : Nat) (options : List Bool)
  | playCard (seatIndex : Nat) (cardIds : List (List Char))
deriving DecidableEq, Repr

/-- `compute_play_legal_actions` (with `safe_legacy_actions` inlined; the
deep copies in the source make the legacy query side-effect free, which the
pure embedding gets for free). Identity strings returned by the engine are
mapped back to card ids through the seat's hand, then the concealed trump. -/
def compute_play_legal_actions (E : LegacyEngine) (st : GameState) :
    PlayLegalActions :=
  let seat := current_actor_index st.leaderIndex st.s.length
  match E.actions (viewOf st) with
  | .empty => .noAction seat
  | .reveal opts => .revealChoice seat opts
  | .play cards =>
    let cardIds := (cards.map Cards.identity).filterMap (fun ident =>
      match (st.play_players.getD seat default).cards.find?
          (fun c => c.identity = ident) with
      | some c => some (to_card_id c)
      | none =>
        match st.player_trump with
        | some pt =>
          if pt.identity = ident then some (to_card_id pt) else none
        | none => none)
    .playCard seat cardIds

/-- `apply_reveal_choice` from `play_engine.py`. -/
def apply_reveal_choice (E : LegacyEngine) (st : GameState)
    (seat_index : Int) (reveal : Bool) : Except WsError GameState :=
  let actor := current_actor_index st.leaderIndex st.s.length
  if seat_index ≠ (actor : Int) then .error .notYourTurnPlay
  else
    let st1 := writeBackResult st (E.result (viewOf st) (.inl reveal))
    if reveal then
      .ok { st1 with
        known := true
        event_log := st1.event_log ++ [LogEntry.revealedTrump seat_index] }
    else
      .ok { st1 with event_log := st1.event_log ++ [LogEntry.choseNotReveal seat_index] }

/-- `_find_card_object_for_play` from `play_engine.py`. -/
def _find_card_object_for_play (st : GameState) (seat_index : Nat)
    (card_id : List Char) : Except WsError Cards :=
  match from_card_id card_id with
  | .error _ => .error .invalidCardId
  | .ok desired =>
    match (st.play_players.getD seat_index default).cards.find?
        (fun c => c.identity = desired.identity) with
    | some c => .ok c
    | none =>
      match st.player_trump with
      | some pt =>
        if pt.identity = desired.identity then .ok pt
        else .error .cardNotFoundToPlay
      | none => .error .cardNotFoundToPlay

/-- `apply_play_card` from `play_engine.py`. -/
def apply_play_card (E : LegacyEngine) (st : GameState) (seat_index : Int)
    (card_id : List Char) : Except WsError GameState :=
  let actor := current_actor_index st.leaderIndex st.s.length
  if seat_index ≠ (actor : Int) then .error .notYourTurnPlay
  else
    match compute_play_legal_actions E st with
    | .playCard _ cardIds =>
      if cardIds = [] then .error .notExpectingCardPlay
      else if card_id ∉ cardIds then .error .illegalCard
      else
        let pre_trick_len := st.s.length
        let led_suit := st.currentSuit
        match _find_card_object_for_play st actor card_id with
        | .error e => .error e
        | .ok card_obj =>
          let st1 := writeBackResult st (E.result (viewOf st) (.inr card_obj))
          let st2 := _infer_void_if_failed_follow st1 actor pre_trick_len
            led_suit card_obj.suit
          .ok { st2 with
            event_log := st2.event_log ++
              [LogEntry.playedCard seat_index card_obj.identity] }
    | _ => .error .notExpectingCardPlay

/-- `resolve_if_catch_complete` from `play_engine.py`. -/
def resolve_if_catch_complete (E : LegacyEngine) (st : GameState) :
    GameState :=
  if st.s.length ≠ 4 then st
  else
    let wp := E.checkwin_extended (viewOf st)
    let winner_index := wp.1
    let points : Int := |wp.2|
    let winner_team := (st.play_players.getD winner_index default).team
    let st1 :=
      if winner_team = 1 then
        { st with
          team1Points := st.team1Points + points
          team1Catches := st.team1Catches ++ [st.s] }
      else
        { st with
          team2Points := st.team2Points + points
          team2Catches := st.team2Catches ++ [st.s] }
    let st2 := { st1 with
      event_log := st1.event_log ++
        [LogEntry.catchWon st1.catchNumber winner_index winner_team points] }
    let rs := E.reset st2.currentSuit st2.s st2.trumpPlayed st2.trumpIndice
      st2.chose
    let st3 := { st2 with
      currentSuit := rs.1
      s := rs.2.1
      trumpPlayed := rs.2.2.1
      trumpIndice := rs.2.2.2.1
      chose := rs.2.2.2.2
      leaderIndex := winner_index
      catchNumber := st2.catchNumber + 1 }
    if st3.catchNumber ≥ 9 then
      let bidder_team := (st3.play_players.getD (st3.finalBid - 1).toNat
        default).team
      let bidding_points :=
        if bidder_team = 1 then st3.team1Points else st3.team2Points
      if bidding_points ≥ st3.finalBidValue then
        { st3 with
          winnerTeam := some bidder_team
          phase := .GAME_OVER
          event_log := st3.event_log ++
            [LogEntry.gameOverWin bidder_team bidding_points st3.finalBidValue] }
      else
        let other_team := if bidder_team = 1 then 2 else 1
        { st3 with
          winnerTeam := some other_team
          phase := .GAME_OVER
          event_log := st3.event_log ++
            [LogEntry.gameOverWin other_team bidding_points st3.finalBidValue] }
    else st3

/-! ## Websocket message handler core (`ws.py`) -/

/-- Inbound client messages (`msg["type"]` dispatch in `ws_game`). -/
inductive Msg
  | getState
  | submitBid (seatIndex : Int) (bidValue : Int)
  | selectTrumpCard (seatIndex : Int) (cardId : List Char)
  | submitRestDeal (restHands : List (List (List Char)))
  | chooseRevealTrump (seatIndex : Int) (reveal : Bool)
  | playCard (seatIndex : Int) (cardId : List Char)
  | unknown
deriving DecidableEq, Repr

/-- The outcome of handling one message (the bot auto-advance and the
outbound frames that follow an accepted action are outside this core):
`ok` means the action was accepted and the state mutated; `rejected` means
an ERROR frame was sent and the connection keeps serving (the carried
state is whatever the handler left behind); `fatal` models an exception
escaping the per-message handling (it tears the connection down). -/
inductive Outcome
  | ok (st : GameState)
  | rejected (st : GameState) (e : WsError)
  | fatal (st : GameState)
deriving DecidableEq, Repr

/-- The state carried by an outcome. -/
def Outcome.stateOf : Outcome → GameState
  | .ok st => st
  | .rejected st _ => st
  | .fatal st => st

/-- `first4_points_by_seat` as computed inline in `ws.py`:
`[sum(c.points for c in state.players_cards[i]) for i in range(4)]`. -/
def first4_points_by_seat (st : GameState) : List Nat :=
  (List.range 4).map (fun i => ((st.players_cards.getD i []).map (·.points)).sum)

/-- The R1 recording step of `ws.py`'s SUBMIT_BID branch (lines writing the
trackers and the per-seat mirror, then advancing the step). -/
def recordR1 (st : GameState) (seat : Int) (v : Int) : GameState :=
  let pos := st.bidding_r1_step
  let st1 := { st with
    bidding_r1_bids_by_pos := st.bidding_r1_bids_by_pos.set pos v
    bids_r1_by_seat := st.bids_r1_by_seat.set seat.toNat v }
  let st2 :=
    if v = 0 then
      { st1 with
        bidding_r1_passes_by_pos := st1.bidding_r1_passes_by_pos.set pos true
        event_log := st1.event_log ++ [LogEntry.passedR1 seat] }
    else
      { st1 with
        bidding_r1_final_pos := pos
        event_log := st1.event_log ++ [LogEntry.bidR1 seat v] }
  { st2 with bidding_r1_step := st2.bidding_r1_step + 1 }

/-- The R1 finalization of `ws.py`'s SUBMIT_BID branch: once 4 steps were
taken, the position last recorded in `bidding_r1_final_pos` becomes the
round winner and both the round-1 and the final bidder/value are set. -/
def finalizeR1 (st : GameState) : GameState :=
  if st.bidding_r1_step ≥ 4 then
    let wpos := st.bidding_r1_final_pos
    let wseat := st.bidding_order.getD wpos 0
    let wbid := st.bidding_r1_bids_by_pos.getD wpos 0
    { st with
      round1_bidder_seat := some wseat
      round1_bid_value := some wbid
      final_bidder_seat := some wseat
      final_bid_value := some wbid
      phase := .TRUMP_SELECT_R1
      event_log := st.event_log ++ [LogEntry.r1Winner wseat wbid] }
  else st

/-- The `BIDDING_R1` arm of `ws.py`'s SUBMIT_BID handling: turn check,
validation, the unimplemented-redeal error (which logs before erroring),
then record and finalize. -/
def submitBidR1 (st : GameState) (seat : Int) (v : Int) : Outcome :=
  if seat ≠ turn_index st then .rejected st .notYourTurnBid
  else
    let rules := compute_r1_turn_rules st.bidding_order st.bidding_r1_step
      st.bidding_r1_bids_by_pos st.bidding_r1_passes_by_pos
      st.bidding_r1_final_pos (first4_points_by_seat st)
    match validate_r1_bid_value rules v with
    | some e => .rejected st e
    | none =>
      if v = -1 then
        .rejected
          { st with
            event_log := st.event_log ++ [LogEntry.requestedRedealNotImplemented seat] }
          .redealNotImplemented
      else .ok (finalizeR1 (recordR1 st seat v))

/-- Python `max(list_of_ints)` (the caller never passes an empty list). -/
def pyMax (l : List Int) : Int :=
  l.foldl max l.headI

/-- The `BIDDING_R2` arm of `ws.py`'s SUBMIT_BID handling. -/
def submitBidR2 (st : GameState) (seat : Int) (v : Int) : Outcome :=
  if seat ≠ turn_index st then .rejected st .notYourTurnBid
  else
    let rules := compute_r2_turn_rules st.bidding_order st.bidding_r2_step
      st.bidding_r2_bids_by_pos
    match validate_r2_bid_value rules v with
    | some e => .rejected st e
    | none =>
      let pos := st.bidding_r2_step
      let st1 := { st with
        bidding_r2_bids_by_pos := st.bidding_r2_bids_by_pos.set pos v
        bids_r2_by_seat := st.bids_r2_by_seat.set seat.toNat v }
      let st2 :=
        if v = 0 then { st1 with event_log := st1.event_log ++ [LogEntry.passedR2 seat] }
        else { st1 with event_log := st1.event_log ++ [LogEntry.bidR2 seat v] }
      let st3 := { st2 with bidding_r2_step := st2.bidding_r2_step + 1 }
      if st3.bidding_r2_step ≥ 4 then
        let max_bid := pyMax st3.bidding_r2_bids_by_pos
        if max_bid = 0 then
          -- no further bids: the contract reverts to round 1 and play begins
          let st4 := { st3 with
            final_bidder_seat := st3.round1_bidder_seat
            final_bid_value := st3.round1_bid_value
            phase := .PLAY }
          match init_play_state st4 with
          | none => .fatal st4
          | some st5 => .ok { st5 with event_log := st5.event_log ++ [LogEntry.noFurtherBidsR2] }
        else
          let max_pos := st3.bidding_r2_bids_by_pos.findIdx (fun b => b == max_bid)
          let new_bidder_seat := st3.bidding_order.getD max_pos 0
          -- return the old concealed trump to the round-1 bidder's hand
          let st4 :=
            match st3.player_trump, st3.round1_bidder_seat with
            | some pt, some r1 =>
              { st3 with players_cards :=
                  st3.players_cards.set r1 ((st3.players_cards.getD r1 []) ++ [pt]) }
            | _, _ => st3
          .ok { st4 with
            final_bidder_seat := some new_bidder_seat
            final_bid_value := some max_bid
            phase := .TRUMP_SELECT_R2
            event_log := st4.event_log ++ [LogEntry.r2Winner new_bidder_seat max_bid] }
      else .ok st3

/-- Pop the first card of `hand` whose identity matches `chosen`, as the
enumerate-and-pop loop of the SELECT_TRUMP_CARD branch does. -/
def removeFirstByIdentity (hand : List Cards) (chosen : Cards) :
    Option (Cards × List Cards) :=
  match hand with
  | [] => none
  | c :: cs =>
    if c.identity = chosen.identity then some (c, cs)
    else
      match removeFirstByIdentity cs chosen with
      | none => none
      | some (p, rest) => some (p, c :: rest)

/-- The SELECT_TRUMP_CARD branch of `ws.py`. The `from_card_id` call sits
outside any try/except there, so a malformed id is a `fatal` outcome. -/
def selectTrumpCard (st : GameState) (seat : Int) (card_id : List Char) :
    Outcome :=
  if st.phase ≠ .TRUMP_SELECT_R1 ∧ st.phase ≠ .TRUMP_SELECT_R2 then
    .rejected st .notInTrumpPhase
  else
    match st.final_bidder_seat with
    | none => .rejected st .finalBidderNotSet
    | some fb =>
      if seat ≠ (fb : Int) then .rejected st .notYourTrumpTurn
      else
        match from_card_id card_id with
        | .error _ => .fatal st
        | .ok chosen =>
          match removeFirstByIdentity (st.players_cards.getD fb []) chosen with
          | none => .rejected st .cardNotInHand
          | some (picked, hand2) =>
            let st1 := { st with
              players_cards := st.players_cards.set fb hand2
              player_trump := some picked
              event_log := st.event_log ++ [LogEntry.selectedTrump seat] }
            if st1.phase = .TRUMP_SELECT_R1 then
              .ok { st1 with
                phase := .MANUAL_DEAL_REST
                event_log := st1.event_log ++ [LogEntry.manualDealPrompt] }
            else
              let st2 := { st1 with phase := .PLAY }
              match init_play_state st2 with
              | none => .fatal st2
              | some st3 =>
                .ok { st3 with event_log := st3.event_log ++ [LogEntry.enteringPlayAfterR2] }

/-- `_validate_manual_rest_deal` from `ws.py` (`none` = valid). The final
Python check is set equality of the submitted ids with the draw-pile ids. -/
def _validate_manual_rest_deal (st : GameState)
    (rest_hands : List (List (List Char))) : Option WsError :=
  if rest_hands.length ≠ 4 then some .restHandsCount
  else if rest_hands.any (fun h => h.length ≠ 4) then some .restHandsSize
  else if rest_hands.flatten.length ≠ 16 then some .restHandsTotal
  else if ¬ rest_hands.flatten.Nodup then some .restHandsDuplicate
  else if rest_hands.flatten.all
        (fun cid => (st.draw_pile.map to_card_id).contains cid) ∧
      (st.draw_pile.map to_card_id).all
        (fun cid => rest_hands.flatten.contains cid) then none
  else some .restHandsMismatch

/-- The sequential append loop of the SUBMIT_REST_DEAL branch: cards are
decoded and appended seat by seat; a decoding failure aborts mid-loop with
the partially mutated state (the branch's `except ValueError` would then
report it — proved unreachable after validation). -/
def appendRestLoop (st : GameState) :
    List (Nat × List Char) → Except GameState GameState
  | [] => .ok st
  | (seat, cid) :: rest =>
    match from_card_id cid with
    | .error _ => .error st
    | .ok c =>
      appendRestLoop
        { st with players_cards :=
            st.players_cards.set seat ((st.players_cards.getD seat []) ++ [c]) }
        rest

/-- The seat/card pairs traversed by the append loop, in order. -/
def restDealPairs (rest_hands : List (List (List Char))) :
    List (Nat × List Char) :=
  (List.range 4).flatMap (fun seat => (rest_hands.getD seat []).map (fun cid => (seat, cid)))

/-- The SUBMIT_REST_DEAL branch of `ws.py`: phase check, validation, card
appends, draw-pile clear, round-2 tracker reset and the transition to
`BIDDING_R2`. The shipped handler performs no abort evaluation here. -/
def submitRestDeal (st : GameState) (rest_hands : List (List (List Char))) :
    Outcome :=
  if st.phase ≠ .MANUAL_DEAL_REST then .rejected st .notInManualDealPhase
  else
    match _validate_manual_rest_deal st rest_hands with
    | some e => .rejected st e
    | none =>
      match appendRestLoop st (restDealPairs rest_hands) with
      | .error st1 => .rejected st1 .invalidCardId
      | .ok st1 =>
        .ok { st1 with
          draw_pile := []
          phase := .BIDDING_R2
          bidding_r2_step := 0
          bidding_r2_bids_by_pos := [0, 0, 0, 0]
          bids_r2_by_seat := [0, 0, 0, 0]
          event_log := st1.event_log ++ [LogEntry.manualDealComplete] }

/-- The per-message dispatch of `ws_game` in `ws.py` (receive loop body),
up to and including the state mutation of an accepted action; the bot
auto-advance and the broadcast that follow an accepted action are out of
scope of this core. -/
def handleMessage (E : LegacyEngine) (st : GameState) : Msg → Outcome
  | .getState => .ok st
  | .submitBid seat v =>
    if st.phase = .BIDDING_R1 then submitBidR1 st seat v
    else if st.phase = .BIDDING_R2 then submitBidR2 st seat v
    else .rejected st .notInBiddingPhase
  | .selectTrumpCard seat cid => selectTrumpCard st seat cid
  | .submitRestDeal rh => submitRestDeal st rh
  | .chooseRevealTrump seat b =>
    if st.phase ≠ .PLAY then .rejected st .notInPlayPhase
    else
      match apply_reveal_choice E st seat b with
      | .error e => .rejected st e
      | .ok st1 => .ok (resolve_if_catch_complete E st1)
  | .playCard seat cid =>
    if st.phase ≠ .PLAY then .rejected st .notInPlayPhase
    else
      match apply_play_card E st seat cid with
      | .error e => .rejected st e
      | .ok st1 => .ok (resolve_if_catch_complete E st1)
  | .unknown => .rejected st .unknownMessageType

/-- The InvalidInput rejection classes of the spec's error taxonomy: every
ERROR the handler can send except the unimplemented-redeal report, which
rejects a *validated* redeal request rather than out-of-contract input. -/
def WsError.isInvalidInput : WsError → Bool
  | .redealNotImplemented => false
  | _ => true

/-! ## Search-depth policy (`k_policy.py`) and rollout snapshot
(`rollout_bot.py`) -/

/-- `compute_k` from `k_policy.py`, with `settings.k_override` passed
explicitly. -/
def compute_k (kOverride : Option Int) (catch_number : Int) : Int :=
  match kOverride with
  | some k => k
  | none =>
    if catch_number ≤ 2 then 3
    else if catch_number ≤ 4 then 3
    else max 1 (9 - catch_number)

/-- The snapshot dict built by `_build_snapshot` in `rollout_bot.py`. -/
structure Snapshot where
  botSeat : Nat
  finalBid : Int
  bidderSeat : Int
  leaderIndex : Nat
  catchNumber : Int
  k : Int
  trumpReveal : Bool
  knownTrumpSuit : Option Suit
  chose : Bool
  currentSuit : Option Suit
  trumpPlayed : Bool
  trumpIndice : List Int
  sCardIds : List (List Char)
  botHandCardIds : List (List Char)
  handSizes : List Nat
  playedCardIds : List (List Char)
  concealedTrumpCardId : Option (List Char)
  suitMatrix : List (List Nat)
deriving DecidableEq, Repr

/-- `_build_snapshot` from `rollout_bot.py`: the redacted, value-typed
projection of the play state handed to rollout workers. -/
def _build_snapshot (kOverride : Option Int) (st : GameState)
    (bot_seat : Nat) : Snapshot :=
  let played_cards :=
    st.team1Catches.flatten ++ st.team2Catches.flatten ++ st.s
  let bidder_seat : Int := st.finalBid - 1
  let concealed_id : Option (List Char) :=
    match st.player_trump with
    | none => none
    | some pt =>
      if (bot_seat : Int) = bidder_seat ∨ st.trumpReveal then
        some (to_card_id pt)
      else none
  { botSeat := bot_seat
    finalBid := st.finalBid
    bidderSeat := bidder_seat
    leaderIndex := st.leaderIndex
    catchNumber := st.catchNumber
    k := compute_k kOverride st.catchNumber
    trumpReveal := st.trumpReveal
    knownTrumpSuit := if st.trumpReveal then st.trumpSuit else none
    chose := st.chose
    currentSuit := st.currentSuit
    trumpPlayed := st.trumpPlayed
    trumpIndice := st.trumpIndice
    sCardIds := st.s.map to_card_id
    botHandCardIds := (st.play_players.getD bot_seat default).cards.map to_card_id
    handSizes := (List.range 4).map
      (fun i => (st.play_players.getD i default).cards.length)
    playedCardIds := played_cards.map to_card_id
    concealedTrumpCardId := concealed_id
    suitMatrix := st.suit_matrix }

/-! ## Concrete instances used by closed theorems and witnesses -/

/-- A concrete legacy engine that returns no actions, echoes the state
through `result`/`reset`, and awards trick 0 points to seat 0. Used only to
instantiate engine-generic theorems at concrete inputs. -/
def trivialEngine : LegacyEngine where
  actions := fun _ => .empty
  result := fun v _ =>
    ⟨v.currentSuit, v.s, v.trumpReveal, v.chose, v.playerTrump,
     v.trumpPlayed, v.trumpIndice, v.players, v.trumpSuit, v.finalBid⟩
  checkwin_extended := fun _ => (0, 0)
  reset := fun a b c d e => (a, b, c, d, e)

/-- A fresh `BIDDING_R1` game record with empty hands (field defaults of
`GameState` in `state.py` plus a pristine suit matrix). -/
def baseState : GameState where
  game_id := 0
  phase := .BIDDING_R1
  starting_bidder_index := 0
  bidding_order := [0, 1, 2, 3]
  bidding_r1_step := 0
  bidding_r2_step := 0
  bidding_r1_bids_by_pos := [0, 0, 0, 0]
  bidding_r1_passes_by_pos := [false, false, false, false]
  bidding_r1_final_pos := 0
  bidding_r2_bids_by_pos := [0, 0, 0, 0]
  bids_r1_by_seat := [0, 0, 0, 0]
  bids_r2_by_seat := [0, 0, 0, 0]
  round1_bidder_seat := none
  round1_bid_value := none
  final_bidder_seat := none
  final_bid_value := none
  players_cards := [[], [], [], []]
  draw_pile := []
  player_trump := none
  finalBid := 0
  finalBidValue := 0
  trumpSuit := none
  trumpReveal := false
  known := false
  chose := false
  leaderIndex := 0
  catchNumber := 1
  s := []
  currentSuit := none
  trumpPlayed := false
  trumpIndice := [0, 0, 0, 0]
  team1Points := 0
  team2Points := 0
  team1Catches := []
  team2Catches := []
  play_players := []
  winnerTeam := none
  suit_matrix := [[1,1,1,1],[1,1,1,1],[1,1,1,1],[1,1,1,1]]
  event_log := []

/-- A fresh game whose starting bidder (seat 0, first in rotation) holds a
zero-point hand (K, Q, 7, 8), as in the repository's redeal test. -/
def c2State : GameState :=
  { baseState with
    players_cards :=
      [[mkCard .Clubs .King, mkCard .Diamonds .Queen,
        mkCard .Hearts .Seven, mkCard .Spades .Eight],
       [mkCard .Hearts .Ace, mkCard .Diamonds .Ace,
        mkCard .Clubs .Ace, mkCard .Spades .Ace],
       [mkCard .Hearts .Ten, mkCard .Diamonds .Ten,
        mkCard .Clubs .Ten, mkCard .Spades .Ten],
       [mkCard .Hearts .King, mkCard .Diamonds .King,
        mkCard .Clubs .Queen, mkCard .Spades .Queen]] }

/-- A game paused in `MANUAL_DEAL_REST`: seat 0 won round 1 at 16, set
`Spades_Nine` aside as concealed trump, and the 16-card draw pile holds all
four Jacks (as in the repository's ALL_FOUR_JACKS abort test). -/
def c3State : GameState :=
  { baseState with
    phase := .MANUAL_DEAL_REST
    players_cards :=
      [[mkCard .Spades .Ace, mkCard .Hearts .Ace, mkCard .Diamonds .Ace],
       [mkCard .Clubs .Nine, mkCard .Clubs .Ace,
        mkCard .Hearts .Ten, mkCard .Diamonds .Ten],
       [mkCard .Spades .Ten, mkCard .Hearts .Nine,
        mkCard .Diamonds .Nine, mkCard .Clubs .Ten],
       [mkCard .Hearts .King, mkCard .Diamonds .King,
        mkCard .Clubs .King, mkCard .Spades .King]]
    draw_pile :=
      [mkCard .Hearts .Seven, mkCard .Hearts .Eight,
       mkCard .Hearts .Queen, mkCard .Hearts .Jack,
       mkCard .Diamonds .Seven, mkCard .Diamonds .Eight,
       mkCard .Diamonds .Queen, mkCard .Diamonds .Jack,
       mkCard .Clubs .Seven, mkCard .Clubs .Eight,
       mkCard .Clubs .Queen, mkCard .Clubs .Jack,
       mkCard .Spades .Seven, mkCard .Spades .Eight,
       mkCard .Spades .Queen, mkCard .Spades .Jack]
    player_trump := some (mkCard .Spades .Nine)
    round1_bidder_seat := some 0
    round1_bid_value := some 16
    final_bidder_seat := some 0
    final_bid_value := some 16
    bidding_r1_step := 4
    bidding_r1_bids_by_pos := [16, 0, 0, 0]
    bidding_r1_passes_by_pos := [false, true, true, true]
    bids_r1_by_seat := [16, 0, 0, 0] }

/-- A rest deal handing seat 1 all four Jacks, valid against `c3State`'s
draw pile. -/
def c3RestHands : List (List (List Char)) :=
  [[cardIdChars .Hearts .Seven, cardIdChars .Hearts .Eight,
    cardIdChars .Hearts .Queen, cardIdChars .Diamonds .Seven],
   [cardIdChars .Hearts .Jack, cardIdChars .Clubs .Jack,
    cardIdChars .Diamonds .Jack, cardIdChars .Spades .Jack],
   [cardIdChars .Diamonds .Eight, cardIdChars .Diamonds .Queen,
    cardIdChars .Clubs .Seven, cardIdChars .Clubs .Eight],
   [cardIdChars .Clubs .Queen, cardIdChars .Spades .Seven,
    cardIdChars .Spades .Eight, cardIdChars .Spades .Queen]]

/-- Extract the state of an `.ok` outcome of the play engine (defaulting to
`baseState`, used only to name concrete successful results). -/
def okStateOf : Except WsError GameState → GameState
  | .ok st => st
  | .error _ => baseState

/-- An engine offering exactly one playable card (`Clubs_Seven`), used to
drive the void-inference witness. -/
def c7Engine : LegacyEngine :=
  { trivialEngine with actions := fun _ => .play [mkCard .Clubs .Seven] }

/-- Mid-trick play state: seat 0 led `Hearts_Ten`; seat 1 (to act) holds
only `Clubs_Seven`, so playing it fails to follow Hearts. -/
def c7State : GameState :=
  { baseState with
    phase := .PLAY
    leaderIndex := 0
    s := [mkCard .Hearts .Ten]
    currentSuit := some .Hearts
    finalBid := 1
    finalBidValue := 16
    play_players :=
      [⟨[mkCard .Spades .Ace], true, 1, some (mkCard .Spades .Nine)⟩,
       ⟨[mkCard .Clubs .Seven], false, 2, none⟩,
       ⟨[mkCard .Spades .Ten], false, 1, none⟩,
       ⟨[mkCard .Hearts .King], false, 2, none⟩]
    player_trump := some (mkCard .Spades .Nine) }

/-- An engine whose trick resolution awards the trick to seat 0 with a
signed value of -5, used for the scoring witness. -/
def c8Engine : LegacyEngine :=
  { trivialEngine with checkwin_extended := fun _ => (0, -5) }

/-- An 8th-trick play state for the scoring witness: bidder seat 0 (team 1)
contracted 20; team 1 holds 20 points before the final trick. -/
def c8State : GameState :=
  { baseState with
    phase := .PLAY
    leaderIndex := 0
    catchNumber := 8
    finalBid := 1
    finalBidValue := 20
    team1Points := 20
    team2Points := 3
    s := [mkCard .Hearts .Ten, mkCard .Hearts .Seven,
          mkCard .Hearts .Eight, mkCard .Hearts .Nine]
    currentSuit := some .Hearts
    play_players :=
      [⟨[], true, 1, some (mkCard .Spades .Nine)⟩,
       ⟨[], false, 2, none⟩,
       ⟨[], false, 1, none⟩,
       ⟨[], false, 2, none⟩]
    player_trump := some (mkCard .Spades .Nine) }

/-- First R1 bid applied to `c2State` (seat 0 bids 14). -/
def c5Step1 : GameState := (submitBidR1 c2State 0 14).stateOf

/-- Second R1 action (seat 1 passes). -/
def c5Step2 : GameState := (submitBidR1 c5Step1 1 0).stateOf

/-- Third R1 action (seat 2 passes). -/
def c5Step3 : GameState := (submitBidR1 c5Step2 2 0).stateOf

/-- Fourth R1 action (seat 3 passes), finalizing the round. -/
def c5Step4 : GameState := (submitBidR1 c5Step3 3 0).stateOf

/-! # Theorems -/

/-! ## Wire-id adapter lemmas -/

theorem splitFirstUnderscore_eq_some {cs a b : List Char}
    (h : splitFirstUnderscore cs = some (a, b)) : cs = a ++ '_' :: b := by
  induction cs generalizing a b with
  | nil => simp [splitFirstUnderscore] at h
  | cons c cs ih =>
    rw [splitFirstUnderscore] at h
    by_cases hc : c = '_'
    · simp [hc] at h
      obtain ⟨ha, hb⟩ := h
      simp [← ha, ← hb, hc]
    · simp [hc] at h
      cases hsp : splitFirstUnderscore cs with
      | none => rw [hsp] at h; simp at h
      | some p =>
        rw [hsp] at h
        obtain ⟨a', b'⟩ := p
        simp at h
        obtain ⟨ha, hb⟩ := h
        have := ih (a := a') (b := b') hsp
        simp [← ha, ← hb, this]

theorem underscore_not_mem_suitChars (s : Suit) : '_' ∉ suitChars s := by
  cases s <;> decide

theorem splitFirstUnderscore_append (a b : List Char) (h : '_' ∉ a) :
    splitFirstUnderscore (a ++ '_' :: b) = some (a, b) := by
  induction a with
  | nil => simp [splitFirstUnderscore]
  | cons c cs ih =>
    have hc : c ≠ '_' := fun hc => h (by simp [hc])
    have hcs : '_' ∉ cs := fun hm => h (by simp [hm])
    simp [splitFirstUnderscore, hc, ih hcs]

theorem parseSuit_eq_some {cs : List Char} {s : Suit} :
    parseSuit cs = some s ↔ cs = suitChars s := by
  constructor
  · intro h
    unfold parseSuit at h
    split_ifs at h <;> simp_all
  · rintro rfl
    cases s <;> decide

theorem parseRank_eq_some {cs : List Char} {r : Rank} :
    parseRank cs = some r ↔ cs = rankChars r := by
  constructor
  · intro h
    unfold parseRank at h
    split_ifs at h <;> simp_all
  · rintro rfl
    cases r <;> decide

theorem from_card_id_cardIdChars (s : Suit) (r : Rank) :
    from_card_id (cardIdChars s r) = .ok (mkCard s r) := by
  unfold from_card_id cardIdChars
  rw [splitFirstUnderscore_append _ _ (underscore_not_mem_suitChars s)]
  simp [parseSuit_eq_some.mpr rfl, parseRank_eq_some.mpr rfl]

theorem from_card_id_ok_shape {cs : List Char} {c : Cards}
    (h : from_card_id cs = .ok c) :
    ∃ s r, cs = cardIdChars s r ∧ c = mkCard s r := by
  unfold from_card_id at h
  split at h
  · simp at h
  next su ra hsp =>
    split at h
    · simp at h
    next s hs =>
      split at h
      · simp at h
      next r hr =>
        simp at h
        refine ⟨s, r, ?_, h.symm⟩
        have hcs := splitFirstUnderscore_eq_some hsp
        rw [hcs, parseSuit_eq_some.mp hs, parseRank_eq_some.mp hr]
        rfl

/-- Round-trip injectivity of the wire encoding: useful downstream when the
handler compares ids as strings. -/
theorem to_card_id_mkCard_inj {s s' : Suit} {r r' : Rank}
    (h : cardIdChars s r = cardIdChars s' r') : s = s' ∧ r = r' := by
  have h1 : from_card_id (cardIdChars s r) = .ok (mkCard s r) :=
    from_card_id_cardIdChars s r
  rw [h, from_card_id_cardIdChars s' r'] at h1
  simp [mkCard] at h1
  exact ⟨h1.1.symm, h1.2.1.symm⟩

/-! ## Claim C9: the card identity adapter -/

/-- C9: the adapter accepts exactly the wire ids "<Suit>_<Rank>" with both
tokens in the fixed enumerations (failing on unknown tokens and on ids
without a separator); decoding then encoding a valid id is the identity;
and the decoded points/order come from the fixed rank table
(Ten/Ace = 1, Nine = 2, Jack = 3, all others 0). -/
theorem c9_card_adapter :
    (∀ cs : List Char,
      (∃ c, from_card_id cs = .ok c) ↔ ∃ s r, cs = cardIdChars s r) ∧
    (∀ (s : Suit) (r : Rank),
      from_card_id (cardIdChars s r) = .ok (mkCard s r)) ∧
    (∀ (cs : List Char) (c : Cards), from_card_id cs = .ok c →
      to_card_id c = cs ∧ c.points = (points_and_order c.rank).1 ∧
        c.order = (points_and_order c.rank).2) ∧
    ((points_and_order .Ten).1 = 1 ∧ (points_and_order .Ace).1 = 1 ∧
      (points_and_order .Nine).1 = 2 ∧ (points_and_order .Jack).1 = 3 ∧
      (points_and_order .Seven).1 = 0 ∧ (points_and_order .Eight).1 = 0 ∧
      (points_and_order .Queen).1 = 0 ∧ (points_and_order .King).1 = 0) := by
  refine ⟨?_, from_card_id_cardIdChars, ?_, by decide⟩
  · intro cs
    constructor
    · rintro ⟨c, hc⟩
      obtain ⟨s, r, hcs, _⟩ := from_card_id_ok_shape hc
      exact ⟨s, r, hcs⟩
    · rintro ⟨s, r, rfl⟩
      exact ⟨mkCard s r, from_card_id_cardIdChars s r⟩
  · intro cs c hc
    obtain ⟨s, r, rfl, rfl⟩ := from_card_id_ok_shape hc
    exact ⟨rfl, rfl, rfl⟩

/-- Witness for C9 at the concrete id `"Hearts_Jack"`. -/
theorem c9_card_adapter_witness :
    from_card_id ("Hearts_Jack".toList) = .ok (mkCard Suit.Hearts Rank.Jack) := by
  have h := c9_card_adapter.2.1 Suit.Hearts Rank.Jack
  rwa [show cardIdChars Suit.Hearts Rank.Jack = "Hearts_Jack".toList by rfl] at h

/-! ## Claim C1: canonical suit-group ordering -/

/-- C1 (counterexample to the claimed ordering): on the spec's own example
hand `[Hearts_Jack, Hearts_Nine, Clubs_Seven, Diamonds_Eight]` the builder
produces the rank groups `[[J,9],[7],[8]]` — among equal-size groups the
*weaker* group sorts first, because `_strength_key` negates the strength
indices before the ascending sort — and not the claimed `[[J,9],[8],[7]]`. -/
theorem c1_canonical_order_code_result :
    (build_canonical_key_and_mapping
        ["Hearts_Jack".toList, "Hearts_Nine".toList,
         "Clubs_Seven".toList, "Diamonds_Eight".toList]).map
        CanonicalResult.canonical_groups
      = .ok [[Rank.Jack, Rank.Nine], [Rank.Seven], [Rank.Eight]] ∧
    (build_canonical_key_and_mapping
        ["Hearts_Jack".toList, "Hearts_Nine".toList,
         "Clubs_Seven".toList, "Diamonds_Eight".toList]).map
        CanonicalResult.canonical_groups
      ≠ .ok [[Rank.Jack, Rank.Nine], [Rank.Eight], [Rank.Seven]] := by
  constructor
  · rfl
  · intro hcontra
    have h1 : (build_canonical_key_and_mapping
        ["Hearts_Jack".toList, "Hearts_Nine".toList,
         "Clubs_Seven".toList, "Diamonds_Eight".toList]).map
        CanonicalResult.canonical_groups
      = .ok [[Rank.Jack, Rank.Nine], [Rank.Seven], [Rank.Eight]] := rfl
    rw [h1] at hcontra
    injection hcontra with h2
    exact absurd h2 (by decide)

/-! ## Claim C6: round-1 turn rules -/

/-- C6: `compute_r1_turn_rules` returns ceiling 23 at every step; at step 0
an exclusive floor of 13, no passing, and redeal allowed iff the acting
seat's starting-hand point total is 0; at step 1 the floor is the step-0
bid; at step 2 the step-1 bid unless the step-1 bidder passed (then
`max(step-0 bid, 19)`); at step 3 `max(bid at the leading position, 19)`
when the leading position is 1, else the bid at the leading position; and
at steps 1-3 passing is allowed and redeal is not. -/
theorem c6_r1_turn_rules :
    ∀ (ord : List Nat) (step : Nat) (bids : List Int) (passes : List Bool)
      (fp : Nat) (pts : List Nat),
      (compute_r1_turn_rules ord step bids passes fp pts).max_bid_inclusive = 23 ∧
      (step = 0 →
        (compute_r1_turn_rules ord step bids passes fp pts).min_bid_exclusive = 13 ∧
        (compute_r1_turn_rules ord step bids passes fp pts).can_pass = false ∧
        ((compute_r1_turn_rules ord step bids passes fp pts).can_redeal = true ↔
          pts.getD (ord.getD 0 0) 0 = 0)) ∧
      (step = 1 →
        (compute_r1_turn_rules ord step bids passes fp pts).min_bid_exclusive =
          bids.getD 0 0) ∧
      (step = 2 →
        (compute_r1_turn_rules ord step bids passes fp pts).min_bid_exclusive =
          (if passes.getD 1 false then max (bids.getD 0 0) 19
           else bids.getD 1 0)) ∧
      (step = 3 →
        (compute_r1_turn_rules ord step bids passes fp pts).min_bid_exclusive =
          (if fp = 1 then max (bids.getD fp 0) 19 else bids.getD fp 0)) ∧
      (step ≠ 0 →
        (compute_r1_turn_rules ord step bids passes fp pts).can_pass = true ∧
        (compute_r1_turn_rules ord step bids passes fp pts).can_redeal = false) := by
  intro ord step bids passes fp pts
  rcases step with _ | _ | _ | _ | n
  · simp [compute_r1_turn_rules, _is_zero_point_first4]
  · simp [compute_r1_turn_rules, _is_zero_point_first4]
  · cases hp : passes[1]?.getD false <;>
      simp [compute_r1_turn_rules, _is_zero_point_first4, List.getD, hp]
  · by_cases hfp : fp = 1 <;>
      simp [compute_r1_turn_rules, _is_zero_point_first4, hfp]
  · simp [compute_r1_turn_rules, _is_zero_point_first4]

/-- Witness for C6 at the spec's own example tracker (first-hand point sums
`[0,5,3,2]`, step 0). -/
theorem c6_r1_turn_rules_witness :
    (compute_r1_turn_rules [0,1,2,3] 0 [0,0,0,0] [false,false,false,false]
        0 [0,5,3,2]).min_bid_exclusive = 13 ∧
    (compute_r1_turn_rules [0,1,2,3] 0 [0,0,0,0] [false,false,false,false]
        0 [0,5,3,2]).can_pass = false ∧
    (compute_r1_turn_rules [0,1,2,3] 0 [0,0,0,0] [false,false,false,false]
        0 [0,5,3,2]).can_redeal = true := by
  have h := (c6_r1_turn_rules [0,1,2,3] 0 [0,0,0,0] [false,false,false,false]
    0 [0,5,3,2]).2.1 rfl
  exact ⟨h.1, h.2.1, h.2.2.mpr (by decide)⟩

/-! ## Claim C10: the rollout snapshot leaks no concealed-trump data -/

/-- C10: for a deciding seat that is not the final bidder, while the trump
is unrevealed, two game states that are identical except for the concealed
trump card (and the trump suit derived from it) produce identical
snapshots; and the snapshot's `concealedTrumpCardId` is populated only when
the deciding seat is the bidder or the trump has been revealed. -/
theorem c10_snapshot_redaction :
    (∀ (kOverride : Option Int) (st : GameState) (botSeat : Nat)
      (pt2 : Option Cards) (ts2 : Option Suit),
      (botSeat : Int) ≠ st.finalBid - 1 →
      st.trumpReveal = false →
      _build_snapshot kOverride
          { st with player_trump := pt2, trumpSuit := ts2 } botSeat =
        _build_snapshot kOverride st botSeat) ∧
    (∀ (kOverride : Option Int) (st : GameState) (botSeat : Nat),
      (_build_snapshot kOverride st botSeat).concealedTrumpCardId ≠ none →
      (botSeat : Int) = st.finalBid - 1 ∨ st.trumpReveal = true) := by
  constructor
  · intro kOverride st botSeat pt2 ts2 hseat hreveal
    unfold _build_snapshot
    simp only [hreveal]
    cases pt2 <;> cases hpt : st.player_trump <;>
      simp [hseat, hreveal]
  · intro kOverride st botSeat h
    unfold _build_snapshot at h
    simp only at h
    cases hpt : st.player_trump with
    | none => rw [hpt] at h; simp at h
    | some pt =>
      rw [hpt] at h
      by_cases hb : (botSeat : Int) = st.finalBid - 1
      · exact Or.inl hb
      · by_cases hr : st.trumpReveal = true
        · exact Or.inr hr
        · exfalso
          apply h
          simp [hb, hr]

/-! ## Suit-matrix cell lemmas -/

theorem getCell_setCell_self {m : List (List Nat)} {r c : Nat} {v : Nat}
    (hr : r < m.length) (hc : c < (m.getD r []).length) :
    getCell (setCell m r c v) r c = v := by
  unfold getCell setCell
  simp only [List.getD_eq_getElem?_getD] at hc ⊢
  rw [List.getElem?_set_eq_of_lt _ hr]
  simp only [Option.getD_some]
  rw [List.getElem?_set_eq_of_lt _ hc]
  rfl

theorem getCell_setCell_ne {m : List (List Nat)} {r c r' c' : Nat} {v : Nat}
    (h : ¬(r' = r ∧ c' = c)) :
    getCell (setCell m r c v) r' c' = getCell m r' c' := by
  unfold getCell setCell
  simp only [List.getD_eq_getElem?_getD]
  by_cases hr : r' = r
  · subst hr
    have hc : c ≠ c' := fun hcc => h ⟨rfl, hcc.symm⟩
    rw [List.getElem?_set_self']
    cases hrow : m[r']? with
    | none => simp
    | some row =>
      simp only [Option.map_some, Option.getD_some, Function.const_apply]
      rw [List.getElem?_set_ne hc]
  · rw [List.getElem?_set_ne (fun hrr => hr hrr.symm)]

theorem getCell_setCell_self_or (m : List (List Nat)) (r c v : Nat) :
    getCell (setCell m r c v) r c = v ∨
    getCell (setCell m r c v) r c = getCell m r c := by
  by_cases hr : r < m.length
  · by_cases hc : c < (m.getD r []).length
    · exact Or.inl (getCell_setCell_self hr hc)
    · right
      unfold getCell setCell
      simp only [List.getD_eq_getElem?_getD]
      rw [List.getElem?_set_eq_of_lt _ hr]
      simp only [Option.getD_some]
      rw [List.set_eq_of_length_le (by
        simp only [List.getD_eq_getElem?_getD] at hc; omega)]
  · right
    unfold getCell setCell
    rw [List.set_eq_of_length_le (by omega)]

/-! ## Behaviour of `_infer_void_if_failed_follow` on the matrix -/

theorem infer_void_cell_self {st1 : GameState} {seatN preLen : Nat}
    {ledSuit ps : Suit} (hpre : preLen ≠ 0) (hdiff : ps ≠ ledSuit)
    (hrlt : SUIT_MATRIX_INDEX ledSuit < st1.suit_matrix.length)
    (hclt : seatN < (st1.suit_matrix.getD (SUIT_MATRIX_INDEX ledSuit) []).length) :
    getCell (_infer_void_if_failed_follow st1 seatN preLen (some ledSuit)
      ps).suit_matrix (SUIT_MATRIX_INDEX ledSuit) seatN = 0 := by
  unfold _infer_void_if_failed_follow
  rw [if_neg hpre]
  simp only
  rw [if_neg hdiff]
  split
  · exact getCell_setCell_self hrlt hclt
  · rename_i hcell
    push_neg at hcell
    exact hcell

theorem infer_void_cell_other {st1 : GameState} {seatN preLen : Nat}
    {ledSuit ps : Suit} {r k : Nat}
    (h : ¬(r = SUIT_MATRIX_INDEX ledSuit ∧ k = seatN)) :
    getCell (_infer_void_if_failed_follow st1 seatN preLen (some ledSuit)
      ps).suit_matrix r k = getCell st1.suit_matrix r k := by
  unfold _infer_void_if_failed_follow
  by_cases hpre : preLen = 0
  · rw [if_pos hpre]
  · rw [if_neg hpre]
    simp only
    by_cases hps : ps = ledSuit
    · rw [if_pos hps]
    · rw [if_neg hps]
      split
      · exact getCell_setCell_ne h
      · rfl

theorem infer_void_noop {st1 : GameState} {seatN preLen : Nat}
    {led : Option Suit} {ps : Suit}
    (h : preLen = 0 ∨ led = none ∨ led = some ps) :
    (_infer_void_if_failed_follow st1 seatN preLen led ps).suit_matrix =
      st1.suit_matrix := by
  unfold _infer_void_if_failed_follow
  rcases h with h | h | h
  · rw [if_pos h]
  · subst h
    by_cases hpre : preLen = 0
    · rw [if_pos hpre]
    · rw [if_neg hpre]
  · subst h
    by_cases hpre : preLen = 0
    · rw [if_pos hpre]
    · rw [if_neg hpre]
      simp

theorem infer_void_mono {st1 : GameState} {seatN preLen : Nat}
    {led : Option Suit} {ps : Suit} {r k : Nat}
    (h0 : getCell st1.suit_matrix r k = 0) :
    getCell (_infer_void_if_failed_follow st1 seatN preLen led ps).suit_matrix
      r k = 0 := by
  unfold _infer_void_if_failed_follow
  by_cases hpre : preLen = 0
  · rw [if_pos hpre]; exact h0
  · rw [if_neg hpre]
    cases led with
    | none => exact h0
    | some ledSuit =>
      simp only
      by_cases hps : ps = ledSuit
      · rw [if_pos hps]; exact h0
      · rw [if_neg hps]
        split
        · by_cases hrk : r = SUIT_MATRIX_INDEX ledSuit ∧ k = seatN
          · rw [hrk.1, hrk.2] at h0 ⊢
            rcases getCell_setCell_self_or st1.suit_matrix
              (SUIT_MATRIX_INDEX ledSuit) seatN 0 with hs | hs
            · exact hs
            · rw [hs]; exact h0
          · rw [getCell_setCell_ne hrk]; exact h0
        · exact h0

/-! ## Claim C7: suit-void inference -/

/-- C7: a successful `apply_play_card` flips the (led suit, seat) cell of
the suit-void matrix to void exactly when the acting seat was not the trick
leader (equivalently, the trick already had cards), the trick had a
non-empty led suit, and the played card's suit differs from the led suit;
no other cell changes; leading or correctly following never changes the
matrix; and no play-phase operation (`apply_play_card`,
`apply_reveal_choice`, `resolve_if_catch_complete`) ever turns a void cell
back to allowed. -/
theorem c7_void_inference :
    (∀ (E : LegacyEngine) (st : GameState) (seat : Int) (cid : List Char)
        (st2 : GameState) (c : Cards),
      apply_play_card E st seat cid = .ok st2 →
      _find_card_object_for_play st
        (current_actor_index st.leaderIndex st.s.length) cid = .ok c →
      st.leaderIndex < 4 → st.s.length ≤ 3 →
      st.suit_matrix.length = 4 →
      (∀ row ∈ st.suit_matrix, row.length = 4) →
      ((seat ≠ (st.leaderIndex : Int)) ↔ st.s.length ≠ 0) ∧
      (∀ ledSuit, st.currentSuit = some ledSuit → st.s.length ≠ 0 →
        c.suit ≠ ledSuit →
        getCell st2.suit_matrix (SUIT_MATRIX_INDEX ledSuit)
          (current_actor_index st.leaderIndex st.s.length) = 0 ∧
        (∀ r k,
          ¬(r = SUIT_MATRIX_INDEX ledSuit ∧
            k = current_actor_index st.leaderIndex st.s.length) →
          getCell st2.suit_matrix r k = getCell st.suit_matrix r k)) ∧
      ((st.s.length = 0 ∨ st.currentSuit = none ∨
          st.currentSuit = some c.suit) →
        st2.suit_matrix = st.suit_matrix) ∧
      (∀ r k, getCell st.suit_matrix r k = 0 →
        getCell st2.suit_matrix r k = 0)) ∧
    (∀ (E : LegacyEngine) (st : GameState) (seat : Int) (b : Bool)
        (st2 : GameState),
      apply_reveal_choice E st seat b = .ok st2 →
      st2.suit_matrix = st.suit_matrix) ∧
    (∀ (E : LegacyEngine) (st : GameState),
      (resolve_if_catch_complete E st).suit_matrix = st.suit_matrix) := by
  refine ⟨?_, ?_, ?_⟩
  · intro E st seat cid st2 c hok hfind hlead hlen hm4 hrow4
    unfold apply_play_card at hok
    by_cases hseat : seat = ((current_actor_index st.leaderIndex st.s.length : Nat) : Int)
    · rw [if_neg (not_not_intro hseat)] at hok
      cases hacts : compute_play_legal_actions E st with
      | noAction i => rw [hacts] at hok; simp at hok
      | revealChoice i o => rw [hacts] at hok; simp at hok
      | playCard i cardIds =>
        rw [hacts] at hok
        simp only at hok
        by_cases hempty : cardIds = []
        · rw [if_pos hempty] at hok; simp at hok
        · rw [if_neg hempty] at hok
          by_cases hmem : cid ∈ cardIds
          · rw [if_neg (not_not_intro hmem)] at hok
            rw [hfind] at hok
            simp only at hok
            injection hok with hok
            -- the suit matrix of the final state is the inferred one over the
            -- post-transition state, whose matrix equals `st`'s
            have hmat : st2.suit_matrix =
                (_infer_void_if_failed_follow
                  (writeBackResult st (E.result (viewOf st) (Sum.inr c)))
                  (current_actor_index st.leaderIndex st.s.length)
                  st.s.length st.currentSuit c.suit).suit_matrix := by
              rw [← hok]
            have hwb : (writeBackResult st (E.result (viewOf st)
                (Sum.inr c))).suit_matrix = st.suit_matrix := rfl
            refine ⟨?_, ?_, ?_, ?_⟩
            · -- actor is the leader iff the trick is empty
              rw [hseat]
              unfold current_actor_index
              constructor
              · intro hne hzero
                apply hne
                have : (st.leaderIndex + st.s.length) % 4 = st.leaderIndex := by
                  omega
                exact_mod_cast congrArg (Nat.cast : Nat → Int) this
              · intro hnz heq
                have heqn : (st.leaderIndex + st.s.length) % 4 = st.leaderIndex := by
                  exact_mod_cast heq
                omega
            · intro ledSuit hled hnz hdiff
              rw [hmat, hled]
              constructor
              · apply infer_void_cell_self hnz hdiff
                · rw [hwb, hm4]
                  cases ledSuit <;> simp [SUIT_MATRIX_INDEX]
                · rw [hwb]
                  have hmem2 : st.suit_matrix.getD (SUIT_MATRIX_INDEX ledSuit) [] ∈
                      st.suit_matrix := by
                    rw [List.getD_eq_getElem?_getD,
                      List.getElem?_eq_getElem
                        (by rw [hm4]; cases ledSuit <;> simp [SUIT_MATRIX_INDEX])]
                    exact List.getElem_mem _
                  rw [hrow4 _ hmem2]
                  unfold current_actor_index
                  omega
              · intro r k hrk
                rw [infer_void_cell_other hrk, hwb]
            · intro hcases
              rw [hmat]
              have : (st.s.length = 0 ∨ st.currentSuit = none ∨
                  st.currentSuit = some c.suit) := hcases
              rw [infer_void_noop this, hwb]
            · intro r k h0
              rw [hmat]
              apply infer_void_mono
              rw [hwb]
              exact h0
          · rw [if_pos hmem] at hok; simp at hok
    · rw [if_pos hseat] at hok
      simp at hok
  · intro E st seat b st2 hok
    unfold apply_reveal_choice at hok
    by_cases hseat : seat = ((current_actor_index st.leaderIndex st.s.length : Nat) : Int)
    · rw [if_neg (not_not_intro hseat)] at hok
      simp only at hok
      split at hok <;> (injection hok with hok; rw [← hok]; rfl)
    · rw [if_pos hseat] at hok
      simp at hok
  · intro E st
    unfold resolve_if_catch_complete
    split
    · rfl
    · simp only
      split_ifs <;> rfl

/-- Witness for C7: seat 1 fails to follow Hearts in `c7State`; the
(Hearts, seat 1) cell flips to void. -/
theorem c7_void_inference_witness :
    getCell (okStateOf
        (apply_play_card c7Engine c7State 1 (cardIdChars .Clubs .Seven))).suit_matrix
      0 1 = 0 := by
  have hok : apply_play_card c7Engine c7State 1 (cardIdChars .Clubs .Seven) =
      .ok (okStateOf (apply_play_card c7Engine c7State 1 (cardIdChars .Clubs .Seven))) := by
    rfl
  have hfind : _find_card_object_for_play c7State
      (current_actor_index c7State.leaderIndex c7State.s.length)
      (cardIdChars .Clubs .Seven) = .ok (mkCard .Clubs .Seven) := by rfl
  have h := (c7_void_inference.1 c7Engine c7State 1 (cardIdChars .Clubs .Seven)
    _ _ hok hfind (by decide) (by decide) (by decide) (by decide)).2.1
    .Hearts rfl (by decide) (by decide)
  exact h.1

/-! ## Claim C8: trick resolution and end-of-game scoring -/

theorem resolve_complete_spec (E : LegacyEngine) (st : GameState)
    (hlen : st.s.length = 4) (hcn9 : st.catchNumber + 1 ≥ 9) :
    (resolve_if_catch_complete E st).phase = .GAME_OVER ∧
    (resolve_if_catch_complete E st).winnerTeam =
      some (if (if (st.play_players.getD (st.finalBid - 1).toNat
            default).team = 1
          then (resolve_if_catch_complete E st).team1Points
          else (resolve_if_catch_complete E st).team2Points) ≥
            st.finalBidValue
        then (st.play_players.getD (st.finalBid - 1).toNat default).team
        else if (st.play_players.getD (st.finalBid - 1).toNat
            default).team = 1 then 2 else 1) := by
  have hnn : ¬(st.s.length ≠ 4) := by simp [hlen]
  unfold resolve_if_catch_complete
  rw [if_neg hnn]
  simp only
  split_ifs <;> simp_all

/-- C8: `resolve_if_catch_complete` is a no-op unless exactly 4 cards are
in the trick; when resolving the 8th trick (counter 8 before, 9 after) the
bidding team is recorded as winner iff its accumulated points reach the
contract, otherwise the opposing team is recorded, and the phase becomes
`GAME_OVER`. -/
theorem c8_resolve_catch :
    ∀ (E : LegacyEngine) (st : GameState),
      (st.s.length ≠ 4 → resolve_if_catch_complete E st = st) ∧
      (st.s.length = 4 → st.catchNumber = 8 →
        (resolve_if_catch_complete E st).phase = .GAME_OVER ∧
        ((resolve_if_catch_complete E st).winnerTeam =
            some (st.play_players.getD (st.finalBid - 1).toNat default).team ↔
          (if (st.play_players.getD (st.finalBid - 1).toNat default).team = 1
            then (resolve_if_catch_complete E st).team1Points
            else (resolve_if_catch_complete E st).team2Points) ≥
            st.finalBidValue) ∧
        (¬((if (st.play_players.getD (st.finalBid - 1).toNat default).team = 1
            then (resolve_if_catch_complete E st).team1Points
            else (resolve_if_catch_complete E st).team2Points) ≥
            st.finalBidValue) →
          (resolve_if_catch_complete E st).winnerTeam =
            some (if (st.play_players.getD (st.finalBid - 1).toNat
                default).team = 1 then 2 else 1))) := by
  intro E st
  constructor
  · intro hlen
    unfold resolve_if_catch_complete
    rw [if_pos hlen]
  · intro hlen hcatch
    obtain ⟨hph, hwt⟩ := resolve_complete_spec E st hlen (by omega)
    refine ⟨hph, ?_, ?_⟩
    · constructor
      · intro hw
        by_contra hnge
        rw [hwt, if_neg hnge] at hw
        injection hw with hw
        by_cases hbt : (st.play_players.getD (st.finalBid - 1).toNat
            default).team = 1
        · rw [if_pos hbt] at hw
          omega
        · rw [if_neg hbt] at hw
          exact hbt hw.symm
      · intro hge
        rw [hwt, if_pos hge]
    · intro hnge
      rw [hwt, if_neg hnge]

/-- Witness for C8 on `c8State`/`c8Engine`: the final trick closes the game
with team 1 (the bidding team, 25 points ≥ contract 20) recorded. -/
theorem c8_resolve_catch_witness :
    (resolve_if_catch_complete c8Engine c8State).phase = .GAME_OVER ∧
    (resolve_if_catch_complete c8Engine c8State).winnerTeam = some 1 := by
  have h := (c8_resolve_catch c8Engine c8State).2 (by decide) (by decide)
  exact ⟨h.1, h.2.1.mpr (by decide)⟩

/-- Witness for C10: changing the concealed trump card of `c7State` (seat 1
deciding, bidder seat 0, trump unrevealed) leaves the snapshot unchanged. -/
theorem c10_snapshot_redaction_witness :
    _build_snapshot none
        { c7State with
          player_trump := some (mkCard .Hearts .Jack)
          trumpSuit := some .Hearts } 1 =
      _build_snapshot none c7State 1 :=
  c10_snapshot_redaction.1 none c7State 1 (some (mkCard .Hearts .Jack))
    (some .Hearts) (by decide) rfl

/-! ## Claim C2: the redeal request in the shipped handler -/

/-- C2 (code_bug evidence): with the starting bidder holding a zero-point
hand, a `SUBMIT_BID` of −1 passes round-1 validation, yet the shipped
handler answers with an ERROR frame ("Redeal flow not implemented yet."),
appends a log line, and performs no redeal: phase, step, hands and draw
pile are untouched. `redeal_first4_in_place` exists in `game_manager.py`
but has no caller. -/
theorem c2_redeal_request_rejected :
    handleMessage trivialEngine c2State (.submitBid 0 (-1)) =
      .rejected
        { c2State with event_log :=
            c2State.event_log ++ [LogEntry.requestedRedealNotImplemented 0] }
        .redealNotImplemented ∧
    validate_r1_bid_value
      (compute_r1_turn_rules c2State.bidding_order c2State.bidding_r1_step
        c2State.bidding_r1_bids_by_pos c2State.bidding_r1_passes_by_pos
        c2State.bidding_r1_final_pos (first4_points_by_seat c2State))
      (-1) = none ∧
    (handleMessage trivialEngine c2State (.submitBid 0 (-1))).stateOf.phase =
      .BIDDING_R1 ∧
    (handleMessage trivialEngine c2State
      (.submitBid 0 (-1))).stateOf.players_cards = c2State.players_cards ∧
    (handleMessage trivialEngine c2State
      (.submitBid 0 (-1))).stateOf.bidding_r1_step = 0 ∧
    (handleMessage trivialEngine c2State
      (.submitBid 0 (-1))).stateOf.draw_pile = c2State.draw_pile := by
  exact ⟨rfl, rfl, rfl, rfl, rfl, rfl⟩

/-! ## Claim C3: rest deal without abort evaluation -/

/-- C3 (code_bug evidence): a valid rest deal that hands seat 1 all four
Jacks is accepted by the shipped handler, which resets the round-2 trackers
and transitions to `BIDDING_R2`; no abort path exists in the branch (the
model has no `GAME_ABORTED` outcome to produce), so the game is neither
aborted nor deleted. -/
theorem c3_rest_deal_no_abort :
    handleMessage trivialEngine c3State (.submitRestDeal c3RestHands) =
      .ok (handleMessage trivialEngine c3State
        (.submitRestDeal c3RestHands)).stateOf ∧
    (handleMessage trivialEngine c3State
      (.submitRestDeal c3RestHands)).stateOf.phase = .BIDDING_R2 ∧
    (((handleMessage trivialEngine c3State
        (.submitRestDeal c3RestHands)).stateOf.players_cards.getD 1 []).filter
      (fun c => c.rank == Rank.Jack)).length = 4 ∧
    (handleMessage trivialEngine c3State
      (.submitRestDeal c3RestHands)).stateOf.draw_pile = [] ∧
    (handleMessage trivialEngine c3State
      (.submitRestDeal c3RestHands)).stateOf.bidding_r2_bids_by_pos =
      [0, 0, 0, 0] := by
  exact ⟨rfl, rfl, rfl, rfl, rfl⟩

/-! ## Claim C4: InvalidInput rejections leave the state unchanged -/

theorem validate_rest_deal_none_parses {st : GameState}
    {rh : List (List (List Char))}
    (h : _validate_manual_rest_deal st rh = none) :
    ∀ p ∈ restDealPairs rh, ∃ c, from_card_id p.2 = .ok c := by
  unfold _validate_manual_rest_deal at h
  split at h
  · exact absurd h (by simp)
  split at h
  · exact absurd h (by simp)
  split at h
  · exact absurd h (by simp)
  split at h
  · exact absurd h (by simp)
  split at h
  case isFalse => exact absurd h (by simp)
  rename_i h1 h2 h3 h4 hcond
  rintro ⟨seat, cid⟩ hp
  unfold restDealPairs at hp
  simp only [List.mem_flatMap, List.mem_range, List.mem_map] at hp
  obtain ⟨seat2, _hs2, cid2, hmem2, heq2⟩ := hp
  injection heq2 with ha hb
  rw [show (⟨seat, cid⟩ : Nat × List Char).2 = cid2 from hb.symm]
  by_cases hlt : seat2 < rh.length
  · have hmemflat : cid2 ∈ rh.flatten := by
      apply List.mem_flatten.mpr
      refine ⟨rh[seat2], List.getElem_mem _, ?_⟩
      rwa [List.getD_eq_getElem?_getD, List.getElem?_eq_getElem hlt,
        Option.getD_some] at hmem2
    have hcontains := List.all_eq_true.mp hcond.1 cid2 hmemflat
    have hmemdraw : cid2 ∈ st.draw_pile.map to_card_id := by
      simpa using hcontains
    obtain ⟨card, _hcardmem, hcid⟩ := List.mem_map.mp hmemdraw
    refine ⟨mkCard card.suit card.rank, ?_⟩
    rw [← hcid]
    exact from_card_id_cardIdChars card.suit card.rank
  · exfalso
    rw [List.getD_eq_getElem?_getD, List.getElem?_eq_none_iff.mpr (by omega)] at hmem2
    simp at hmem2

theorem appendRestLoop_ok :
    ∀ (pairs : List (Nat × List Char)) (st : GameState),
      (∀ p ∈ pairs, ∃ c, from_card_id p.2 = .ok c) →
      ∃ stf, appendRestLoop st pairs = .ok stf := by
  intro pairs
  induction pairs with
  | nil => exact fun st _ => ⟨st, rfl⟩
  | cons p rest ih =>
    intro st h
    obtain ⟨c, hc⟩ := h p (List.mem_cons_self _ _)
    obtain ⟨seat, cid⟩ := p
    unfold appendRestLoop
    rw [hc]
    exact ih _ (fun q hq => h q (List.mem_cons_of_mem _ hq))

theorem submitBidR1_rejected {st : GameState} {seat v : Int}
    {st2 : GameState} {e : WsError}
    (h : submitBidR1 st seat v = .rejected st2 e)
    (hinv : e.isInvalidInput = true) : st2 = st := by
  unfold submitBidR1 at h
  simp only [] at h
  split at h
  · injection h with h1 h2
    exact h1.symm
  · split at h
    · injection h with h1 h2
      exact h1.symm
    · split at h
      · injection h with h1 h2
        rw [← h2] at hinv
        simp [WsError.isInvalidInput] at hinv
      · exact absurd h (by simp)

theorem submitBidR2_rejected {st : GameState} {seat v : Int}
    {st2 : GameState} {e : WsError}
    (h : submitBidR2 st seat v = .rejected st2 e) : st2 = st := by
  unfold submitBidR2 at h
  simp only [] at h
  split at h
  · injection h with h1 h2
    exact h1.symm
  · split at h
    · injection h with h1 h2
      exact h1.symm
    · -- every remaining path produces `.ok` or `.fatal`, never a rejection
      split at h
      all_goals try split at h
      all_goals try split at h
      all_goals try split at h
      all_goals exact absurd h (by simp)

theorem selectTrumpCard_rejected {st : GameState} {seat : Int}
    {cid : List Char} {st2 : GameState} {e : WsError}
    (h : selectTrumpCard st seat cid = .rejected st2 e) : st2 = st := by
  unfold selectTrumpCard at h
  simp only [] at h
  split at h
  · injection h with h1 h2
    exact h1.symm
  · split at h
    · injection h with h1 h2
      exact h1.symm
    · split at h
      · injection h with h1 h2
        exact h1.symm
      · split at h
        · exact absurd h (by simp)
        · split at h
          · injection h with h1 h2
            exact h1.symm
          · split at h
            · exact absurd h (by simp)
            · split at h
              · exact absurd h (by simp)
              · exact absurd h (by simp)

theorem submitRestDeal_rejected {st : GameState}
    {rh : List (List (List Char))} {st2 : GameState} {e : WsError}
    (h : submitRestDeal st rh = .rejected st2 e) : st2 = st := by
  unfold submitRestDeal at h
  split at h
  · injection h with h1 h2
    exact h1.symm
  · split at h
    · injection h with h1 h2
      exact h1.symm
    · rename_i hvalid
      split at h
      · rename_i st1 happend
        exfalso
        obtain ⟨stf, hok⟩ :=
          appendRestLoop_ok (restDealPairs rh) st
            (validate_rest_deal_none_parses hvalid)
        rw [happend] at hok
        exact absurd hok (by simp)
      · exact absurd h (by simp)

/-- C4: every message the handler rejects with one of the InvalidInput
error classes (wrong turn, wrong phase, illegal bid values, invalid rest
deals, illegal/unknown cards, unknown message types) leaves the game
record — event log included — exactly as it was; only the
unimplemented-redeal report (not an InvalidInput) mutates before its ERROR
frame. -/
theorem c4_invalid_input_rejection :
    ∀ (E : LegacyEngine) (st : GameState) (msg : Msg) (st2 : GameState)
      (e : WsError),
      handleMessage E st msg = .rejected st2 e →
      e.isInvalidInput = true →
      st2 = st := by
  intro E st msg st2 e h hinv
  cases msg with
  | getState => exact absurd h (by simp [handleMessage])
  | submitBid seat v =>
    simp only [handleMessage] at h
    split at h
    · exact submitBidR1_rejected h hinv
    · split at h
      · exact submitBidR2_rejected h
      · injection h with h1 h2
        exact h1.symm
  | selectTrumpCard seat cid =>
    simp only [handleMessage] at h
    exact selectTrumpCard_rejected h
  | submitRestDeal rh =>
    simp only [handleMessage] at h
    exact submitRestDeal_rejected h
  | chooseRevealTrump seat b =>
    simp only [handleMessage] at h
    split at h
    · injection h with h1 h2
      exact h1.symm
    · split at h
      · injection h with h1 h2
        exact h1.symm
      · exact absurd h (by simp)
  | playCard seat cid =>
    simp only [handleMessage] at h
    split at h
    · injection h with h1 h2
      exact h1.symm
    · split at h
      · injection h with h1 h2
        exact h1.symm
      · exact absurd h (by simp)
  | unknown =>
    simp only [handleMessage] at h
    injection h with h1 h2
    exact h1.symm

/-- Witness for C4: a wrong-turn round-1 bid (seat 1 while seat 0 is to
act) is rejected and the state is untouched. -/
theorem c4_invalid_input_rejection_witness :
    (handleMessage trivialEngine c2State (Msg.submitBid 1 14)).stateOf =
      c2State :=
  c4_invalid_input_rejection trivialEngine c2State (Msg.submitBid 1 14)
    ((handleMessage trivialEngine c2State (Msg.submitBid 1 14)).stateOf)
    WsError.notYourTurnBid rfl rfl

/-! ## Claim C5: round-1 finalization helpers -/

theorem submitBidR1_ok_elim {st : GameState} {seat v : Int} {st2 : GameState}
    (h : submitBidR1 st seat v = .ok st2) :
    validate_r1_bid_value
      (compute_r1_turn_rules st.bidding_order st.bidding_r1_step
        st.bidding_r1_bids_by_pos st.bidding_r1_passes_by_pos
        st.bidding_r1_final_pos (first4_points_by_seat st)) v = none ∧
    v ≠ -1 ∧ st2 = finalizeR1 (recordR1 st seat v) := by
  unfold submitBidR1 at h
  simp only [] at h
  split at h
  · exact absurd h (by simp)
  · split at h
    · exact absurd h (by simp)
    · rename_i hval
      split at h
      · exact absurd h (by simp)
      · rename_i hv
        injection h with h2
        exact ⟨hval, hv, h2.symm⟩

theorem validate_r1_none_facts {rules : BidTurnRules} {v : Int}
    (h : validate_r1_bid_value rules v = none) (hv : v ≠ -1) :
    (v = 0 ∧ rules.can_pass = true) ∨
    (v ≠ 0 ∧ rules.min_bid_exclusive < v ∧ v ≤ rules.max_bid_inclusive) := by
  unfold validate_r1_bid_value at h
  rw [if_neg hv] at h
  by_cases h0 : v = 0
  · rw [if_pos h0] at h
    cases hcp : rules.can_pass with
    | false => rw [hcp] at h; simp at h
    | true => exact Or.inl ⟨h0, rfl⟩
  · rw [if_neg h0] at h
    by_cases hle : v ≤ rules.min_bid_exclusive
    · rw [if_pos hle] at h; simp at h
    · rw [if_neg hle] at h
      by_cases hgt : v > rules.max_bid_inclusive
      · rw [if_pos hgt] at h; simp at h
      · exact Or.inr ⟨h0, by omega, by omega⟩

theorem recordR1_fields (st : GameState) (seat v : Int) :
    (recordR1 st seat v).bidding_r1_step = st.bidding_r1_step + 1 ∧
    (recordR1 st seat v).bidding_r1_bids_by_pos =
      st.bidding_r1_bids_by_pos.set st.bidding_r1_step v ∧
    (recordR1 st seat v).bidding_order = st.bidding_order ∧
    (recordR1 st seat v).players_cards = st.players_cards ∧
    (v = 0 →
      (recordR1 st seat v).bidding_r1_passes_by_pos =
        st.bidding_r1_passes_by_pos.set st.bidding_r1_step true ∧
      (recordR1 st seat v).bidding_r1_final_pos = st.bidding_r1_final_pos) ∧
    (v ≠ 0 →
      (recordR1 st seat v).bidding_r1_passes_by_pos =
        st.bidding_r1_passes_by_pos ∧
      (recordR1 st seat v).bidding_r1_final_pos = st.bidding_r1_step) := by
  unfold recordR1
  by_cases h0 : v = 0 <;> simp [h0]

theorem finalizeR1_lt (st : GameState) (h : st.bidding_r1_step < 4) :
    finalizeR1 st = st := by
  unfold finalizeR1
  rw [if_neg (by omega)]

theorem finalizeR1_done (st : GameState) (h : st.bidding_r1_step ≥ 4) :
    (finalizeR1 st).bidding_r1_final_pos = st.bidding_r1_final_pos ∧
    (finalizeR1 st).bidding_r1_bids_by_pos = st.bidding_r1_bids_by_pos ∧
    (finalizeR1 st).bidding_order = st.bidding_order ∧
    (finalizeR1 st).round1_bidder_seat =
      some (st.bidding_order.getD st.bidding_r1_final_pos 0) ∧
    (finalizeR1 st).round1_bid_value =
      some (st.bidding_r1_bids_by_pos.getD st.bidding_r1_final_pos 0) ∧
    (finalizeR1 st).final_bidder_seat =
      some (st.bidding_order.getD st.bidding_r1_final_pos 0) ∧
    (finalizeR1 st).final_bid_value =
      some (st.bidding_r1_bids_by_pos.getD st.bidding_r1_final_pos 0) ∧
    (finalizeR1 st).phase = .TRUMP_SELECT_R1 := by
  unfold finalizeR1
  rw [if_pos h]
  simp

set_option linter.unnecessarySeqFocus false in
/-- C5: starting from a fresh round-1 tracker, any four validated and
recorded round-1 actions leave the winning position holding the unique
highest non-zero bid, and both the round-1 and the final bidder/value point
at that position's seat and bid, with the phase moved to trump selection. -/
theorem c5_r1_winner_highest :
    ∀ (st0 st1 st2 st3 st4 : GameState) (s0 s1 s2 s3 v0 v1 v2 v3 : Int),
      st0.bidding_r1_step = 0 →
      st0.bidding_r1_bids_by_pos = [0, 0, 0, 0] →
      st0.bidding_r1_passes_by_pos = [false, false, false, false] →
      st0.bidding_r1_final_pos = 0 →
      submitBidR1 st0 s0 v0 = .ok st1 →
      submitBidR1 st1 s1 v1 = .ok st2 →
      submitBidR1 st2 s2 v2 = .ok st3 →
      submitBidR1 st3 s3 v3 = .ok st4 →
      st4.bidding_r1_bids_by_pos.getD st4.bidding_r1_final_pos 0 ≠ 0 ∧
      (∀ j < 4, j ≠ st4.bidding_r1_final_pos →
        st4.bidding_r1_bids_by_pos.getD j 0 = 0 ∨
        st4.bidding_r1_bids_by_pos.getD j 0 <
          st4.bidding_r1_bids_by_pos.getD st4.bidding_r1_final_pos 0) ∧
      st4.round1_bidder_seat =
        some (st4.bidding_order.getD st4.bidding_r1_final_pos 0) ∧
      st4.round1_bid_value =
        some (st4.bidding_r1_bids_by_pos.getD st4.bidding_r1_final_pos 0) ∧
      st4.final_bidder_seat = st4.round1_bidder_seat ∧
      st4.final_bid_value = st4.round1_bid_value ∧
      st4.phase = .TRUMP_SELECT_R1 := by
  intro st0 st1 st2 st3 st4 s0 s1 s2 s3 v0 v1 v2 v3 hstep0 hbids0 hpass0 hfp0
    h0 h1 h2 h3
  obtain ⟨hval0, hneg0, hst1⟩ := submitBidR1_ok_elim h0
  obtain ⟨hval1, hneg1, hst2⟩ := submitBidR1_ok_elim h1
  obtain ⟨hval2, hneg2, hst3⟩ := submitBidR1_ok_elim h2
  obtain ⟨hval3, hneg3, hst4⟩ := submitBidR1_ok_elim h3
  -- step 0: passing is disallowed, so 13 < v0
  rw [hstep0, hbids0, hpass0, hfp0] at hval0
  have hv0 : v0 ≠ 0 ∧ 13 < v0 := by
    rcases validate_r1_none_facts hval0 hneg0 with ⟨-, hcp⟩ | ⟨hnz, hlow, -⟩
    · rw [show (compute_r1_turn_rules st0.bidding_order 0 [0,0,0,0]
          [false,false,false,false] 0
          (first4_points_by_seat st0)).can_pass = false from by
        simp [compute_r1_turn_rules]] at hcp
      simp at hcp
    · refine ⟨hnz, ?_⟩
      rw [show (compute_r1_turn_rules st0.bidding_order 0 [0,0,0,0]
          [false,false,false,false] 0
          (first4_points_by_seat st0)).min_bid_exclusive = 13 from by
        simp [compute_r1_turn_rules]] at hlow
      exact hlow
  obtain ⟨hv0nz, hv0gt⟩ := hv0
  -- state 1 fields
  have r1f := recordR1_fields st0 s0 v0
  have hst1e : st1 = recordR1 st0 s0 v0 := by
    rw [hst1, finalizeR1_lt _ (by rw [r1f.1, hstep0]; omega)]
  have h1step : st1.bidding_r1_step = 1 := by rw [hst1e, r1f.1, hstep0]
  have h1bids : st1.bidding_r1_bids_by_pos = [v0, 0, 0, 0] := by
    rw [hst1e, r1f.2.1, hstep0, hbids0]
    rfl
  have h1pass : st1.bidding_r1_passes_by_pos =
      [false, false, false, false] := by
    rw [hst1e, (r1f.2.2.2.2.2 hv0nz).1, hpass0]
  have h1fp : st1.bidding_r1_final_pos = 0 := by
    rw [hst1e, (r1f.2.2.2.2.2 hv0nz).2, hstep0]
  -- step counters for states 2-4 (branch independent)
  have r2f := recordR1_fields st1 s1 v1
  have hst2e : st2 = recordR1 st1 s1 v1 := by
    rw [hst2, finalizeR1_lt _ (by rw [r2f.1, h1step]; omega)]
  have h2step : st2.bidding_r1_step = 2 := by rw [hst2e, r2f.1, h1step]
  have r3f := recordR1_fields st2 s2 v2
  have hst3e : st3 = recordR1 st2 s2 v2 := by
    rw [hst3, finalizeR1_lt _ (by rw [r3f.1, h2step]; omega)]
  have h3step : st3.bidding_r1_step = 3 := by rw [hst3e, r3f.1, h2step]
  have r4f := recordR1_fields st3 s3 v3
  have hstep4 : (recordR1 st3 s3 v3).bidding_r1_step ≥ 4 := by
    rw [r4f.1, h3step]
  have hfd := finalizeR1_done (recordR1 st3 s3 v3) hstep4
  -- round winner bookkeeping (branch independent)
  have hc3 : st4.round1_bidder_seat =
      some (st4.bidding_order.getD st4.bidding_r1_final_pos 0) := by
    rw [hst4, hfd.2.2.2.1, hfd.1, hfd.2.2.1]
  have hc4 : st4.round1_bid_value =
      some (st4.bidding_r1_bids_by_pos.getD st4.bidding_r1_final_pos 0) := by
    rw [hst4, hfd.2.2.2.2.1, hfd.1, hfd.2.1]
  have hc5 : st4.final_bidder_seat = st4.round1_bidder_seat := by
    rw [hst4, hfd.2.2.2.2.2.1, hfd.2.2.2.1]
  have hc6 : st4.final_bid_value = st4.round1_bid_value := by
    rw [hst4, hfd.2.2.2.2.2.2.1, hfd.2.2.2.2.1]
  have hc7 : st4.phase = .TRUMP_SELECT_R1 := by
    rw [hst4]; exact hfd.2.2.2.2.2.2.2
  have hbids4 : st4.bidding_r1_bids_by_pos =
      st3.bidding_r1_bids_by_pos.set 3 v3 := by
    rw [hst4, hfd.2.1, r4f.2.1, h3step]
  have hfp4z : v3 = 0 →
      st4.bidding_r1_final_pos = st3.bidding_r1_final_pos := by
    intro hz; rw [hst4, hfd.1, (r4f.2.2.2.2.1 hz).2]
  have hfp4n : v3 ≠ 0 → st4.bidding_r1_final_pos = 3 := by
    intro hn; rw [hst4, hfd.1, (r4f.2.2.2.2.2 hn).2, h3step]
  -- the branch-dependent heart: the winner's bid strictly dominates
  have hkey : st4.bidding_r1_bids_by_pos.getD st4.bidding_r1_final_pos 0 ≠ 0 ∧
      (∀ j < 4, j ≠ st4.bidding_r1_final_pos →
        st4.bidding_r1_bids_by_pos.getD j 0 = 0 ∨
        st4.bidding_r1_bids_by_pos.getD j 0 <
          st4.bidding_r1_bids_by_pos.getD st4.bidding_r1_final_pos 0) := by
    rw [h1step, h1bids, h1pass, h1fp] at hval1
    rcases validate_r1_none_facts hval1 hneg1 with ⟨hv1z, -⟩ |
      ⟨hv1nz, hlow1, -⟩
    · -- seat at position 1 passed
      have h2bids : st2.bidding_r1_bids_by_pos = [v0, 0, 0, 0] := by
        rw [hst2e, r2f.2.1, h1step, h1bids, hv1z]
        rfl
      have h2pass : st2.bidding_r1_passes_by_pos =
          [false, true, false, false] := by
        rw [hst2e, (r2f.2.2.2.2.1 hv1z).1, h1step, h1pass]
        rfl
      have h2fp : st2.bidding_r1_final_pos = 0 := by
        rw [hst2e, (r2f.2.2.2.2.1 hv1z).2, h1fp]
      rw [h2step, h2bids, h2pass, h2fp] at hval2
      rcases validate_r1_none_facts hval2 hneg2 with ⟨hv2z, -⟩ |
        ⟨hv2nz, hlow2, -⟩
      · -- position 2 passed as well
        have h3bids : st3.bidding_r1_bids_by_pos = [v0, 0, 0, 0] := by
          rw [hst3e, r3f.2.1, h2step, h2bids, hv2z]
          rfl
        have h3pass : st3.bidding_r1_passes_by_pos =
            [false, true, true, false] := by
          rw [hst3e, (r3f.2.2.2.2.1 hv2z).1, h2step, h2pass]
          rfl
        have h3fp : st3.bidding_r1_final_pos = 0 := by
          rw [hst3e, (r3f.2.2.2.2.1 hv2z).2, h2fp]
        rw [h3step, h3bids, h3pass, h3fp] at hval3
        rcases validate_r1_none_facts hval3 hneg3 with ⟨hv3z, -⟩ |
          ⟨hv3nz, hlow3, -⟩
        · have hb4 : st4.bidding_r1_bids_by_pos = [v0, 0, 0, 0] := by
            rw [hbids4, h3bids, hv3z]
            rfl
          rw [hb4, hfp4z hv3z, h3fp]
          refine ⟨by simp [List.getD]; omega, ?_⟩
          intro j hj hne
          interval_cases j <;> simp [List.getD] at hne ⊢
        · rw [show (compute_r1_turn_rules st3.bidding_order 3 [v0,0,0,0]
              [false,true,true,false] 0
              (first4_points_by_seat st3)).min_bid_exclusive = v0 from by
            simp [compute_r1_turn_rules, List.getD]] at hlow3
          have hb4 : st4.bidding_r1_bids_by_pos = [v0, 0, 0, v3] := by
            rw [hbids4, h3bids]
            rfl
          rw [hb4, hfp4n hv3nz]
          refine ⟨by simp [List.getD]; omega, ?_⟩
          intro j hj hne
          interval_cases j <;> simp [List.getD] at hne ⊢ <;> omega
      · -- position 2 raised over max(v0, 19)
        rw [show (compute_r1_turn_rules st2.bidding_order 2 [v0,0,0,0]
            [false,true,false,false] 0
            (first4_points_by_seat st2)).min_bid_exclusive =
              max v0 19 from by
          simp [compute_r1_turn_rules, List.getD]] at hlow2
        have h3bids : st3.bidding_r1_bids_by_pos = [v0, 0, v2, 0] := by
          rw [hst3e, r3f.2.1, h2step, h2bids]
          rfl
        have h3pass : st3.bidding_r1_passes_by_pos =
            [false, true, false, false] := by
          rw [hst3e, (r3f.2.2.2.2.2 hv2nz).1, h2pass]
        have h3fp : st3.bidding_r1_final_pos = 2 := by
          rw [hst3e, (r3f.2.2.2.2.2 hv2nz).2, h2step]
        rw [h3step, h3bids, h3pass, h3fp] at hval3
        rcases validate_r1_none_facts hval3 hneg3 with ⟨hv3z, -⟩ |
          ⟨hv3nz, hlow3, -⟩
        · have hb4 : st4.bidding_r1_bids_by_pos = [v0, 0, v2, 0] := by
            rw [hbids4, h3bids, hv3z]
            rfl
          rw [hb4, hfp4z hv3z, h3fp]
          refine ⟨by simp [List.getD]; omega, ?_⟩
          intro j hj hne
          interval_cases j <;> simp [List.getD] at hne ⊢ <;> omega
        · rw [show (compute_r1_turn_rules st3.bidding_order 3 [v0,0,v2,0]
              [false,true,false,false] 2
              (first4_points_by_seat st3)).min_bid_exclusive = v2 from by
            simp [compute_r1_turn_rules, List.getD]] at hlow3
          have hb4 : st4.bidding_r1_bids_by_pos = [v0, 0, v2, v3] := by
            rw [hbids4, h3bids]
            rfl
          rw [hb4, hfp4n hv3nz]
          refine ⟨by simp [List.getD]; omega, ?_⟩
          intro j hj hne
          interval_cases j <;> simp [List.getD] at hne ⊢ <;> omega
    · -- seat at position 1 raised over v0
      rw [show (compute_r1_turn_rules st1.bidding_order 1 [v0,0,0,0]
          [false,false,false,false] 0
          (first4_points_by_seat st1)).min_bid_exclusive = v0 from by
        simp [compute_r1_turn_rules, List.getD]] at hlow1
      have h2bids : st2.bidding_r1_bids_by_pos = [v0, v1, 0, 0] := by
        rw [hst2e, r2f.2.1, h1step, h1bids]
        rfl
      have h2pass : st2.bidding_r1_passes_by_pos =
          [false, false, false, false] := by
        rw [hst2e, (r2f.2.2.2.2.2 hv1nz).1, h1pass]
      have h2fp : st2.bidding_r1_final_pos = 1 := by
        rw [hst2e, (r2f.2.2.2.2.2 hv1nz).2, h1step]
      rw [h2step, h2bids, h2pass, h2fp] at hval2
      rcases validate_r1_none_facts hval2 hneg2 with ⟨hv2z, -⟩ |
        ⟨hv2nz, hlow2, -⟩
      · -- position 2 passed
        have h3bids : st3.bidding_r1_bids_by_pos = [v0, v1, 0, 0] := by
          rw [hst3e, r3f.2.1, h2step, h2bids, hv2z]
          rfl
        have h3pass : st3.bidding_r1_passes_by_pos =
            [false, false, true, false] := by
          rw [hst3e, (r3f.2.2.2.2.1 hv2z).1, h2step, h2pass]
          rfl
        have h3fp : st3.bidding_r1_final_pos = 1 := by
          rw [hst3e, (r3f.2.2.2.2.1 hv2z).2, h2fp]
        rw [h3step, h3bids, h3pass, h3fp] at hval3
        rcases validate_r1_none_facts hval3 hneg3 with ⟨hv3z, -⟩ |
          ⟨hv3nz, hlow3, -⟩
        · have hb4 : st4.bidding_r1_bids_by_pos = [v0, v1, 0, 0] := by
            rw [hbids4, h3bids, hv3z]
            rfl
          rw [hb4, hfp4z hv3z, h3fp]
          refine ⟨by simp [List.getD]; omega, ?_⟩
          intro j hj hne
          interval_cases j <;> simp [List.getD] at hne ⊢ <;> omega
        · rw [show (compute_r1_turn_rules st3.bidding_order 3 [v0,v1,0,0]
              [false,false,true,false] 1
              (first4_points_by_seat st3)).min_bid_exclusive =
                max v1 19 from by
            simp [compute_r1_turn_rules, List.getD]] at hlow3
          have hb4 : st4.bidding_r1_bids_by_pos = [v0, v1, 0, v3] := by
            rw [hbids4, h3bids]
            rfl
          rw [hb4, hfp4n hv3nz]
          refine ⟨by simp [List.getD]; omega, ?_⟩
          intro j hj hne
          interval_cases j <;> simp [List.getD] at hne ⊢ <;> omega
      · -- position 2 raised over v1
        rw [show (compute_r1_turn_rules st2.bidding_order 2 [v0,v1,0,0]
            [false,false,false,false] 1
            (first4_points_by_seat st2)).min_bid_exclusive = v1 from by
          simp [compute_r1_turn_rules, List.getD]] at hlow2
        have h3bids : st3.bidding_r1_bids_by_pos = [v0, v1, v2, 0] := by
          rw [hst3e, r3f.2.1, h2step, h2bids]
          rfl
        have h3pass : st3.bidding_r1_passes_by_pos =
            [false, false, false, false] := by
          rw [hst3e, (r3f.2.2.2.2.2 hv2nz).1, h2pass]
        have h3fp : st3.bidding_r1_final_pos = 2 := by
          rw [hst3e, (r3f.2.2.2.2.2 hv2nz).2, h2step]
        rw [h3step, h3bids, h3pass, h3fp] at hval3
        rcases validate_r1_none_facts hval3 hneg3 with ⟨hv3z, -⟩ |
          ⟨hv3nz, hlow3, -⟩
        · have hb4 : st4.bidding_r1_bids_by_pos = [v0, v1, v2, 0] := by
            rw [hbids4, h3bids, hv3z]
            rfl
          rw [hb4, hfp4z hv3z, h3fp]
          refine ⟨by simp [List.getD]; omega, ?_⟩
          intro j hj hne
          interval_cases j <;> simp [List.getD] at hne ⊢ <;> omega
        · rw [show (compute_r1_turn_rules st3.bidding_order 3 [v0,v1,v2,0]
              [false,false,false,false] 2
              (first4_points_by_seat st3)).min_bid_exclusive = v2 from by
            simp [compute_r1_turn_rules, List.getD]] at hlow3
          have hb4 : st4.bidding_r1_bids_by_pos = [v0, v1, v2, v3] := by
            rw [hbids4, h3bids]
            rfl
          rw [hb4, hfp4n hv3nz]
          refine ⟨by simp [List.getD]; omega, ?_⟩
          intro j hj hne
          interval_cases j <;> simp [List.getD] at hne ⊢ <;> omega
  exact ⟨hkey.1, hkey.2, hc3, hc4, hc5, hc6, hc7⟩

/-- Witness for C5: seat 0 bids 14 in `c2State` and everyone else passes;
position 0 wins with 14 and the round closes into trump selection. -/
theorem c5_r1_winner_highest_witness :
    c5Step4.round1_bidder_seat = some 0 ∧
    c5Step4.round1_bid_value = some 14 ∧
    c5Step4.phase = .TRUMP_SELECT_R1 := by
  have h := c5_r1_winner_highest c2State c5Step1 c5Step2 c5Step3 c5Step4
    0 1 2 3 14 0 0 0 rfl rfl rfl rfl rfl rfl rfl rfl
  refine ⟨?_, ?_, h.2.2.2.2.2.2⟩
  · rw [h.2.2.1]
    rfl
  · rw [h.2.2.2.1]
    rfl

end Game28
